import Mathlib

/-!
# Process supervisor: command-line tokenizer, sandbox arguments and launcher

A shallow embedding of `native/src/linux/process_linux.cpp` and of the two Windows
helpers `AppendArgumentWin` and `ReadPipeWin` of `native/src/common/utils.cpp`.

* A C string (`const char*`, `std::string`) is the list of its `char`s; a
  nullable `const char*` is an `Option`.
* `parse_command_line` is the tokenizer loop, one `parse_step` per character.
* `ArgBuilder`, `add_bwrap_base` and `build_args` build the argument vector.
* `StartProcessLinux` is the launcher.  The operating system is a record of
  outcomes (`SysOutcomes`) for every call whose result the code inspects, and
  the launcher returns the chronological list of system calls it made (`Event`)
  together with how it ended (`Ret`).
* `launch_child` and `launch_parent` are the two sides of one launch, joined by what
  the child left in the exec-status channel.
* `ReadPipeWin` is run against outcomes of the Windows calls (`WinOutcomes`);
  `win_outcomes` gives those outcomes for a pipe state.
-/

namespace Workspace

/-! ## Data model -/

/-- The characters of a C string, without the terminating NUL: one `Char` stands for
one `char`.  A C string holds no NUL; the theorems below hold for every list. -/
abbrev CString := List Char

/-- The space character. -/
def SPACE : Char := ' '

/-- The horizontal tab character. -/
def TAB : Char := '\t'

/-- The single-quote character. -/
def SQUOTE : Char := Char.ofNat 39

/-- The double-quote character. -/
def DQUOTE : Char := Char.ofNat 34

/-- The backslash character. -/
def BACKSLASH : Char := Char.ofNat 92

/-- A character with no special meaning to the tokenizer: neither a space, a tab,
a quote nor a backslash. -/
def plain (c : Char) : Prop :=
  c ≠ SPACE ∧ c ≠ TAB ∧ c ≠ SQUOTE ∧ c ≠ DQUOTE ∧ c ≠ BACKSLASH

instance (c : Char) : Decidable (plain c) := by
  unfold plain; infer_instance

/-! ## Tokenizer (`parse_command_line`) -/

/-- The local variables of `parse_command_line` that live across loop iterations. -/
structure ParseState where
  parts : List CString
  current : CString
  inSingleQuote : Bool
  inDoubleQuote : Bool
  escape : Bool
deriving DecidableEq, Repr

/-- The locals as initialised before the loop. -/
def ParseState.init : ParseState :=
  { parts := [], current := [], inSingleQuote := false, inDoubleQuote := false,
    escape := false }

/-- One iteration of the `for` loop of `parse_command_line` on character `c`. -/
def parse_step (st : ParseState) (c : Char) : ParseState :=
  if st.escape = true then
    { st with current := st.current ++ [c], escape := false }
  else if c = BACKSLASH ∧ st.inSingleQuote = false then
    { st with escape := true }
  else if c = SQUOTE ∧ st.inDoubleQuote = false then
    { st with inSingleQuote := !st.inSingleQuote }
  else if c = DQUOTE ∧ st.inSingleQuote = false then
    { st with inDoubleQuote := !st.inDoubleQuote }
  else if (c = SPACE ∨ c = TAB) ∧ st.inSingleQuote = false ∧ st.inDoubleQuote = false then
    if st.current ≠ [] then
      { st with parts := st.parts ++ [st.current], current := [] }
    else st
  else
    { st with current := st.current ++ [c] }

/-- The whole `for` loop: the characters of `cmd` are consumed left to right. -/
def parse_loop (cmd : CString) (st : ParseState) : ParseState :=
  cmd.foldl parse_step st

/-- The code after the loop: a non-empty `current` is pushed as the last part. -/
def parse_finish (st : ParseState) : List CString :=
  if st.current ≠ [] then st.parts ++ [st.current] else st.parts

/-- The tokenizer.  A null pointer and the empty string return no part at once. -/
def parse_command_line (command_line : Option CString) : List CString :=
  match command_line with
  | none => []
  | some [] => []
  | some cmd => parse_finish (parse_loop cmd ParseState.init)

/-- The separator test of the specification: the character is a space or a tab. -/
def is_blank (c : Char) : Bool := c = SPACE || c = TAB

/-- The tokens as the specification words them for input without quotes and
backslashes: the maximal runs of characters other than space and tab, in input
order.  The input is cut at every space or tab and the empty pieces are dropped. -/
def maximal_runs (s : CString) : List CString :=
  (s.splitOnP is_blank).filter (fun t => !t.isEmpty)

/-! ## Argument vector (`ArgBuilder`) -/

/-- The argument builder: it owns the strings of the vector, in order. -/
structure ArgBuilder where
  storage : List CString
deriving DecidableEq, Repr

namespace ArgBuilder

/-- Method `add`: push one argument at the back. -/
def add (b : ArgBuilder) (arg : CString) : ArgBuilder :=
  { storage := b.storage ++ [arg] }

/-- Method `getArgs`: one pointer per stored string, then a null pointer. -/
def getArgs (b : ArgBuilder) : List (Option CString) :=
  b.storage.map some ++ [none]

/-- Method `empty`. -/
def empty (b : ArgBuilder) : Bool := b.storage.isEmpty

/-- Method `size`. -/
def size (b : ArgBuilder) : Nat := b.storage.length

/-- Method `add_bwrap_base`: the fixed bubblewrap configuration, one `add` per argument. -/
def add_bwrap_base (b : ArgBuilder) : ArgBuilder :=
  b |>.add "bwrap".toList
    |>.add "--unshare-all".toList
    |>.add "--share-net".toList
    |>.add "--die-with-parent".toList
    |>.add "--cap-drop".toList |>.add "ALL".toList
    |>.add "--ro-bind".toList |>.add "/".toList |>.add "/".toList
    |>.add "--dev-bind".toList |>.add "/dev".toList |>.add "/dev".toList
    |>.add "--proc".toList |>.add "/proc".toList
    |>.add "--tmpfs".toList |>.add "/tmp".toList
    |>.add "--ro-bind".toList |>.add "/usr".toList |>.add "/usr".toList
    |>.add "--ro-bind".toList |>.add "/bin".toList |>.add "/bin".toList

end ArgBuilder

/-- The test `cwd && *cwd`: the pointer is not null and the string is not empty. -/
def cwd_given (cwd : Option CString) : Bool :=
  match cwd with
  | some (_ :: _) => true
  | _ => false

/-- The string a `const char*` argument converts to when it is passed to `add`. -/
def cstr (p : Option CString) : CString := p.getD []

/-- The block of `StartProcessLinux` that fills `args` from the parsed command line. -/
def build_args (parsed : List CString) (cwd : Option CString) (sandbox : Bool) :
    ArgBuilder :=
  let args : ArgBuilder := { storage := [] }
  if sandbox = true then
    let args := args.add_bwrap_base
    let args :=
      if cwd_given cwd = true then
        args |>.add "--bind".toList |>.add (cstr cwd) |>.add (cstr cwd)
             |>.add "--chdir".toList |>.add (cstr cwd)
      else args
    parsed.foldl ArgBuilder.add args
  else
    parsed.foldl ArgBuilder.add args

/-! ## Launcher (`StartProcessLinux`) -/

/-- The fields of `ProcessHandle` that the launcher fills in. -/
structure ProcessHandle where
  pid : Int
  fdOut : Int
  fdErr : Int
  isRunning : Bool
  exitCode : Int
deriving DecidableEq, Repr

/-- The value a failing system call returns together with the `errno` it sets. -/
structure SysRet where
  ret : Int
  errno : Int
deriving DecidableEq, Repr

/-- The outcome of every system call whose result `StartProcessLinux` inspects. -/
structure SysOutcomes where
  /-- First `pipe`: `none` when it returns -1, else the read and write ends. -/
  pipeOut : Option (Int × Int)
  /-- Second `pipe`. -/
  pipeErr : Option (Int × Int)
  /-- Third `pipe`, the exec-status channel. -/
  pipeExec : Option (Int × Int)
  /-- What `fork` returns: -1 on failure, 0 in the child, the child's pid in the parent. -/
  forkRet : Int
  /-- Child: `dup2` onto standard output. -/
  dup2Out : SysRet
  /-- Child: `dup2` onto standard error. -/
  dup2Err : SysRet
  /-- Child: `chdir`. -/
  chdirRet : SysRet
  /-- Child: `none` when `execvp` replaces the process image, else the `errno` it fails with. -/
  execvpErrno : Option Int
  /-- Parent: what `read` on the exec-status channel returns. -/
  readSz : Int
  /-- Parent: what `fcntl(F_GETFL)` returns for the stdout read end. -/
  getflOut : Int
  /-- Parent: what `fcntl(F_GETFL)` returns for the stderr read end. -/
  getflErr : Int
deriving DecidableEq, Repr

/-- A system call made by the launcher, with its arguments and (where inspected) its result. -/
inductive Event where
  | pipe (result : Option (Int × Int))
  | close (fd : Int)
  | fcntl_setfd_cloexec (fd : Int)
  | fork (ret : Int)
  | dup2 (oldfd newfd : Int) (ret : Int)
  | chdir (path : CString) (ret : Int)
  | execvp (file : Option CString) (argv : List (Option CString))
  | write_int (fd : Int) (value : Int)
  | read_int (fd : Int) (ret : Int)
  | waitpid (pid : Int)
  | fcntl_getfl (fd : Int) (ret : Int)
  | fcntl_setfl_nonblock (fd : Int) (flags : Int)
deriving DecidableEq, Repr

/-- How a call of `StartProcessLinux` ends. -/
inductive Ret where
  /-- The statement `return nullptr`. -/
  | null
  /-- The statement `return handle`. -/
  | handle (h : ProcessHandle)
  /-- The child called `_exit(status)`; the function does not return. -/
  | child_exit (status : Int)
  /-- The child's `execvp` succeeded; the function does not return. -/
  | child_exec
deriving DecidableEq, Repr

/-- The system calls made, in order, and the way the call ended. -/
structure Run where
  trace : List Event
  ret : Ret
deriving DecidableEq, Repr

/-- The descriptor number `STDOUT_FILENO`. -/
def STDOUT_FILENO : Int := 1

/-- The descriptor number `STDERR_FILENO`. -/
def STDERR_FILENO : Int := 2

/-- The call `set_nonblocking(fd)` when `F_GETFL` returns `flags`: the flag is set unless that is -1. -/
def set_nonblocking (fd : Int) (flags : Int) : List Event :=
  if flags ≠ -1 then [Event.fcntl_getfl fd flags, Event.fcntl_setfl_nonblock fd flags]
  else [Event.fcntl_getfl fd flags]

/-- The child branch (`pid == 0`) of `StartProcessLinux`. -/
def child_branch (exec_args : List (Option CString)) (cwd : Option CString)
    (sandbox : Bool) (pipeOut pipeErr pipeExec : Int × Int) (os : SysOutcomes) : Run :=
  let t0 := [Event.close pipeOut.1, Event.close pipeErr.1, Event.close pipeExec.1]
  let t1 := t0 ++ [Event.dup2 pipeOut.2 STDOUT_FILENO os.dup2Out.ret]
  if os.dup2Out.ret = -1 then ⟨t1, Ret.child_exit os.dup2Out.errno⟩ else
  let t2 := t1 ++ [Event.dup2 pipeErr.2 STDERR_FILENO os.dup2Err.ret]
  if os.dup2Err.ret = -1 then ⟨t2, Ret.child_exit os.dup2Err.errno⟩ else
  let t3 := t2 ++ [Event.close pipeOut.2, Event.close pipeErr.2]
  let exec (t : List Event) : Run :=
    let t := t ++ [Event.execvp (exec_args.headD none) exec_args]
    match os.execvpErrno with
    | none => ⟨t, Ret.child_exec⟩
    | some err => ⟨t ++ [Event.write_int pipeExec.2 err], Ret.child_exit 1⟩
  if cwd_given cwd = true ∧ sandbox = false then
    let t4 := t3 ++ [Event.chdir (cstr cwd) os.chdirRet.ret]
    if os.chdirRet.ret = -1 then
      ⟨t4 ++ [Event.write_int pipeExec.2 os.chdirRet.errno], Ret.child_exit 1⟩
    else exec t4
  else exec t3

/-- The parent branch (`pid` neither -1 nor 0) of `StartProcessLinux`. -/
def parent_branch (pid : Int) (pipeOut pipeErr pipeExec : Int × Int) (os : SysOutcomes) :
    Run :=
  let t0 := [Event.close pipeOut.2, Event.close pipeErr.2, Event.close pipeExec.2,
    Event.read_int pipeExec.1 os.readSz, Event.close pipeExec.1]
  if os.readSz > 0 then
    ⟨t0 ++ [Event.close pipeOut.1, Event.close pipeErr.1, Event.waitpid pid], Ret.null⟩
  else
    ⟨t0 ++ set_nonblocking pipeOut.1 os.getflOut ++ set_nonblocking pipeErr.1 os.getflErr,
      Ret.handle { pid := pid, fdOut := pipeOut.1, fdErr := pipeErr.1, isRunning := true,
                   exitCode := -1 }⟩

/-- The launcher.  `id` is accepted and never used, as in the source. -/
def StartProcessLinux (command_line cwd : Option CString) (sandbox : Bool)
    (_id : Option CString) (os : SysOutcomes) : Run :=
  let parsed := parse_command_line command_line
  if parsed.isEmpty = true then ⟨[], Ret.null⟩ else
  let args := build_args parsed cwd sandbox
  let exec_args := args.getArgs
  match os.pipeOut with
  | none => ⟨[Event.pipe none], Ret.null⟩
  | some pipeOut =>
  match os.pipeErr with
  | none =>
    ⟨[Event.pipe (some pipeOut), Event.pipe none,
      Event.close pipeOut.1, Event.close pipeOut.2], Ret.null⟩
  | some pipeErr =>
  match os.pipeExec with
  | none =>
    ⟨[Event.pipe (some pipeOut), Event.pipe (some pipeErr), Event.pipe none,
      Event.close pipeOut.1, Event.close pipeOut.2,
      Event.close pipeErr.1, Event.close pipeErr.2], Ret.null⟩
  | some pipeExec =>
  let t := [Event.pipe (some pipeOut), Event.pipe (some pipeErr), Event.pipe (some pipeExec),
    Event.fcntl_setfd_cloexec pipeExec.2, Event.fork os.forkRet]
  if os.forkRet = -1 then
    ⟨t ++ [Event.close pipeOut.1, Event.close pipeOut.2,
           Event.close pipeErr.1, Event.close pipeErr.2,
           Event.close pipeExec.1, Event.close pipeExec.2], Ret.null⟩
  else if os.forkRet = 0 then
    let r := child_branch exec_args cwd sandbox pipeOut pipeErr pipeExec os
    ⟨t ++ r.trace, r.ret⟩
  else
    let r := parent_branch os.forkRet pipeOut pipeErr pipeExec os
    ⟨t ++ r.trace, r.ret⟩

/-! ## The sandbox profile as the specification lists it, and bubblewrap's reading -/

/-- The 22 leading arguments of a sandboxed launch, as the specification lists them:
all namespaces unshared except network, die with parent, all capabilities dropped,
root read-only, `/dev` passed through, fresh `/proc`, tmpfs `/tmp`, and `/usr` and
`/bin` read-only again. -/
def spec_base_profile : List CString :=
  ["bwrap", "--unshare-all", "--share-net", "--die-with-parent", "--cap-drop", "ALL",
   "--ro-bind", "/", "/", "--dev-bind", "/dev", "/dev", "--proc", "/proc",
   "--tmpfs", "/tmp", "--ro-bind", "/usr", "/usr", "--ro-bind", "/bin", "/bin"].map
    String.toList

/-- The working-directory rules of the specification for directory `d`: bind it
read-write at its own path and start there. -/
def spec_cwd_rules (d : CString) : List CString :=
  ["--bind".toList, d, d, "--chdir".toList, d]

/-- Whether an argument begins with `--`. -/
def begins_with_dashes (a : CString) : Bool :=
  match a with
  | '-' :: '-' :: _ => true
  | _ => false

/-- The number of operands bubblewrap takes after an option, for the options the
launcher itself passes (`--cap-drop CAP`, `--ro-bind SRC DEST`, `--dev-bind SRC DEST`,
`--bind SRC DEST`, `--proc DEST`, `--tmpfs DEST`, `--chdir DIR`); the flags
`--unshare-all`, `--share-net` and `--die-with-parent` take none. -/
def bwrap_operands (opt : CString) : Nat :=
  if opt ∈ ["--ro-bind".toList, "--dev-bind".toList, "--bind".toList] then 2
  else if opt ∈ ["--cap-drop".toList, "--proc".toList, "--tmpfs".toList,
      "--chdir".toList] then 1
  else 0

/-- The arguments after the leading `bwrap` as bubblewrap reads them, in the words
of the specification: its own options and their operands run up to the first element
that neither begins with `--` nor is an operand of a preceding option; what remains
is the program to run and its arguments.  `owed` counts the operands still due to
the preceding option. -/
def bwrap_read (owed : Nat) : List CString → List CString × List CString
  | [] => ([], [])
  | a :: rest =>
    match owed with
    | n + 1 => let r := bwrap_read n rest; (a :: r.1, r.2)
    | 0 =>
      if begins_with_dashes a = true then
        let r := bwrap_read (bwrap_operands a) rest; (a :: r.1, r.2)
      else ([], a :: rest)

/-! ## Sample outcomes of the operating system -/

/-- A run seen from the child: the three pipes are (3,4), (5,6), (7,8), `fork`
returns 0, both `dup2` and `chdir` succeed and `execvp` replaces the image. -/
def os_child_exec : SysOutcomes :=
  { pipeOut := some (3, 4), pipeErr := some (5, 6), pipeExec := some (7, 8), forkRet := 0,
    dup2Out := ⟨1, 0⟩, dup2Err := ⟨2, 0⟩, chdirRet := ⟨0, 0⟩, execvpErrno := none,
    readSz := 0, getflOut := 0, getflErr := 0 }

/-- A run seen from the parent: the same pipes, `fork` returns pid 4242 and the read
of the exec-status channel returns `readSz` bytes. -/
def os_parent (readSz : Int) : SysOutcomes :=
  { pipeOut := some (3, 4), pipeErr := some (5, 6), pipeExec := some (7, 8),
    forkRet := 4242, dup2Out := ⟨1, 0⟩, dup2Err := ⟨2, 0⟩, chdirRet := ⟨0, 0⟩,
    execvpErrno := none, readSz := readSz, getflOut := 0, getflErr := 0 }

/-! ## Writing an argument vector back as a command line -/

/-- One argument written with a backslash before each of its characters. -/
def escape_all (t : CString) : CString :=
  t.flatMap (fun c => [BACKSLASH, c])

/-- The command line for an argument vector: every argument written with a backslash
before each of its characters, the results joined by single spaces. -/
def command_line_of (ts : List CString) : CString :=
  List.intercalate [SPACE] (ts.map escape_all)

/-- The scan of `a` ends outside single and double quotes with no pending backslash
escape. -/
def ends_unquoted (a : CString) : Prop :=
  (parse_loop a ParseState.init).inSingleQuote = false ∧
  (parse_loop a ParseState.init).inDoubleQuote = false ∧
  (parse_loop a ParseState.init).escape = false

instance (a : CString) : Decidable (ends_unquoted a) := by
  unfold ends_unquoted; infer_instance

/-! ## Windows command-line quoting (`AppendArgumentWin`) -/

/-- The characters of a `std::wstring`: one `Char` stands for one `wchar_t`. -/
abbrev WString := List Char

/-- The call `s.find(c)`: the index of the first occurrence of `c`, or `none` for `npos`. -/
def wfind (s : WString) (c : Char) : Option Nat :=
  match s with
  | [] => none
  | x :: rest => if x = c then some 0 else (wfind rest c).map (fun i => i + 1)

/-- The body of the `for` loop of `AppendArgumentWin` on character `c`. -/
def append_quoted_step (cmdLine : WString) (c : Char) : WString :=
  if c = DQUOTE then cmdLine ++ [BACKSLASH, DQUOTE] else cmdLine ++ [c]

/-- The function `AppendArgumentWin`; the result is the new value of `cmdLine`. -/
def AppendArgumentWin (cmdLine arg : WString) : WString :=
  let cmdLine := if cmdLine ≠ [] then cmdLine ++ [SPACE] else cmdLine
  if arg.length ≥ 2 ∧ arg.head? = some DQUOTE ∧ arg.getLast? = some DQUOTE then
    cmdLine ++ arg
  else if wfind arg SPACE = none ∧ wfind arg TAB = none then
    cmdLine ++ arg
  else
    let cmdLine := cmdLine ++ [DQUOTE]
    let cmdLine := arg.foldl append_quoted_step cmdLine
    cmdLine ++ [DQUOTE]

/-- The encoding of an argument as the specification words it: the argument unchanged
when it has length at least 2 and both starts and ends with a double quote, or when
it contains neither space nor tab; otherwise a double quote, the argument with every
double quote replaced by backslash and double quote, and a closing double quote. -/
def spec_win_encoding (arg : WString) : WString :=
  if (2 ≤ arg.length ∧ arg.head? = some DQUOTE ∧ arg.getLast? = some DQUOTE)
      ∨ (SPACE ∉ arg ∧ TAB ∉ arg) then arg
  else
    [DQUOTE] ++ arg.flatMap (fun c => if c = DQUOTE then [BACKSLASH, DQUOTE] else [c])
      ++ [DQUOTE]

/-! ## Open descriptors along a trace -/

/-- The effect of one system call on the set of open descriptors: a successful `pipe`
opens its two ends, `close` closes its argument, nothing else opens or closes. -/
def fd_step (open_set : Finset Int) (e : Event) : Finset Int :=
  match e with
  | Event.pipe (some (r, w)) => insert w (insert r open_set)
  | Event.close fd => open_set.erase fd
  | _ => open_set

/-- The set of open descriptors after the system calls of `trace`, starting from
`open_set`. -/
def open_fds (open_set : Finset Int) (trace : List Event) : Finset Int :=
  trace.foldl fd_step open_set

/-- The operating system's guarantee on `pipe`: every successful `pipe` of the trace
returns two different descriptors, neither of them open at the time of the call. -/
def pipes_fresh : Finset Int → List Event → Bool
  | _, [] => true
  | open_set, e :: rest =>
    (match e with
     | Event.pipe (some (r, w)) => decide (r ≠ w ∧ r ∉ open_set ∧ w ∉ open_set)
     | _ => true) && pipes_fresh (fd_step open_set e) rest

/-! ## Both sides of one launch -/

/-- Whether the event is a `chdir`. -/
def Event.is_chdir : Event → Bool
  | Event.chdir _ _ => true
  | _ => false

/-- Whether the event is an `execvp`. -/
def Event.is_execvp : Event → Bool
  | Event.execvp _ _ => true
  | _ => false

/-- Whether the event is a `write` to descriptor `fd`. -/
def Event.is_write_to (fd : Int) : Event → Bool
  | Event.write_int f _ => decide (f = fd)
  | _ => false

/-- The size in bytes of the `int` the child writes to the exec-status channel. -/
def SIZEOF_INT : Int := 4

/-- What the parent's `read` of the exec-status channel returns once the child has
made the calls of `child_trace`: the bytes of the `int` when the child wrote one to
the write end `wfd`, and 0, end of stream, when the child exited or replaced its image
without writing (the write end is then closed, by `_exit` or by close-on-exec). -/
def exec_status_read (wfd : Int) (child_trace : List Event) : Int :=
  if child_trace.any (Event.is_write_to wfd) = true then SIZEOF_INT else 0

/-- The child's side of a launch: `fork` returns 0. -/
def launch_child (command_line cwd : Option CString) (sandbox : Bool)
    (id : Option CString) (os : SysOutcomes) : Run :=
  StartProcessLinux command_line cwd sandbox id { os with forkRet := 0 }

/-- The parent's side of the same launch: `fork` returns `pid` and the read of the
exec-status channel returns what the child of `launch_child` left in it. -/
def launch_parent (command_line cwd : Option CString) (sandbox : Bool)
    (id : Option CString) (os : SysOutcomes) (pid : Int) : Run :=
  StartProcessLinux command_line cwd sandbox id
    { os with
      forkRet := pid
      readSz :=
        match os.pipeExec with
        | some px => exec_status_read px.2 (launch_child command_line cwd sandbox id os).trace
        | none => 0 }

/-- A launch in which the child's `dup2` onto standard output fails with `errno` 16. -/
def os_dup2_fails : SysOutcomes :=
  { pipeOut := some (3, 4), pipeErr := some (5, 6), pipeExec := some (7, 8), forkRet := 0,
    dup2Out := ⟨-1, 16⟩, dup2Err := ⟨2, 0⟩, chdirRet := ⟨0, 0⟩, execvpErrno := none,
    readSz := 0, getflOut := 0, getflErr := 0 }

/-- A launch in which the child's `chdir` fails with `errno` 2. -/
def os_chdir_fails : SysOutcomes :=
  { pipeOut := some (3, 4), pipeErr := some (5, 6), pipeExec := some (7, 8), forkRet := 0,
    dup2Out := ⟨1, 0⟩, dup2Err := ⟨2, 0⟩, chdirRet := ⟨-1, 2⟩, execvpErrno := none,
    readSz := 0, getflOut := 0, getflErr := 0 }

/-! ## Windows pipe read (`ReadPipeWin`) -/

/-- The Windows error code `ERROR_BROKEN_PIPE`. -/
def ERROR_BROKEN_PIPE : Nat := 109

/-- The outcome of every Windows call whose result `ReadPipeWin` inspects. -/
structure WinOutcomes where
  /-- Whether `PeekNamedPipe` returns non-zero. -/
  peekOk : Bool
  /-- The `DWORD` it stores in `r`, the number of bytes available, when it succeeds. -/
  peekAvail : Nat
  /-- What `GetLastError` returns after the `PeekNamedPipe` call. -/
  errAfterPeek : Nat
  /-- Whether `ReadFile` returns non-zero. -/
  readOk : Bool
  /-- The `DWORD` it stores in `r`, the number of bytes read, when it succeeds. -/
  readCount : Nat
  /-- What `GetLastError` returns after the `ReadFile` call. -/
  errAfterRead : Nat
deriving DecidableEq, Repr

/-- A Windows call made by `ReadPipeWin`. -/
inductive WinCall where
  | PeekNamedPipe
  | GetLastError
  | ReadFile (nNumberOfBytesToRead : Nat)
deriving DecidableEq, Repr

/-- The Windows calls made, in order, and the value returned. -/
structure WinRun where
  calls : List WinCall
  ret : Int
deriving DecidableEq, Repr

/-- The conversion of the `int` buffer size to the `DWORD` parameter of `ReadFile`. -/
def int_to_dword (sz : Int) : Nat := (sz % 2 ^ 32).toNat

/-- The conversion `(int)r` of a `DWORD`. -/
def dword_to_int (r : Nat) : Int :=
  if r % 2 ^ 32 < 2 ^ 31 then ((r % 2 ^ 32 : Nat) : Int) else ((r % 2 ^ 32 : Nat) : Int) - 2 ^ 32

/-- The function `ReadPipeWin(h, buf, sz)`. -/
def ReadPipeWin (sz : Int) (w : WinOutcomes) : WinRun :=
  if w.peekOk = false ∨ w.peekAvail = 0 then
    if w.errAfterPeek = ERROR_BROKEN_PIPE then
      ⟨[WinCall.PeekNamedPipe, WinCall.GetLastError], 0⟩
    else
      ⟨[WinCall.PeekNamedPipe, WinCall.GetLastError], -1⟩
  else if w.readOk = true then
    ⟨[WinCall.PeekNamedPipe, WinCall.ReadFile (int_to_dword sz)], dword_to_int w.readCount⟩
  else if w.errAfterRead = ERROR_BROKEN_PIPE then
    ⟨[WinCall.PeekNamedPipe, WinCall.ReadFile (int_to_dword sz), WinCall.GetLastError], 0⟩
  else
    ⟨[WinCall.PeekNamedPipe, WinCall.ReadFile (int_to_dword sz), WinCall.GetLastError], -1⟩

/-- The state of the pipe and of the calling thread when `ReadPipeWin` is called. -/
structure WinPipe where
  /-- The number of bytes written to the pipe and not yet read. -/
  avail : Nat
  /-- Whether the writer has closed its end. -/
  writerClosed : Bool
  /-- The calling thread's last-error value, left by its earlier calls. -/
  lastError : Nat
deriving DecidableEq, Repr

/-- How Windows answers the calls of `ReadPipeWin` on pipe state `p` with buffer size
`sz`.  `PeekNamedPipe` fails with `ERROR_BROKEN_PIPE` when the writer has closed the
pipe and it is drained, and otherwise succeeds and reports the bytes available;
`ReadFile` on a pipe holding data succeeds with as many bytes as fit the request, and
on a drained pipe closed by the writer fails with `ERROR_BROKEN_PIPE` (on an open,
empty pipe it would wait for data; `ReadPipeWin` makes no `ReadFile` there).  A call
that succeeds leaves the thread's last-error value as it was. -/
def win_outcomes (p : WinPipe) (sz : Int) : WinOutcomes :=
  { peekOk := !(decide (p.avail = 0) && p.writerClosed)
    peekAvail := p.avail
    errAfterPeek :=
      if p.avail = 0 ∧ p.writerClosed = true then ERROR_BROKEN_PIPE else p.lastError
    readOk := !(decide (p.avail = 0) && p.writerClosed)
    readCount := min (int_to_dword sz) p.avail
    errAfterRead :=
      if p.avail = 0 ∧ p.writerClosed = true then ERROR_BROKEN_PIPE else p.lastError }

/-! ## Tokenizer: how the loop treats runs of characters -/

theorem parse_loop_append (a b : CString) (st : ParseState) :
    parse_loop (a ++ b) st = parse_loop b (parse_loop a st) := by
  simp [parse_loop, List.foldl_append]

theorem parse_loop_cons (c : Char) (s : CString) (st : ParseState) :
    parse_loop (c :: s) st = parse_loop s (parse_step st c) := rfl

/-- Spaces and tabs met outside quotes while `current` is empty change nothing. -/
theorem parse_loop_blank (s : CString) (h : ∀ c ∈ s, c = SPACE ∨ c = TAB)
    (parts : List CString) :
    parse_loop s ⟨parts, [], false, false, false⟩ = ⟨parts, [], false, false, false⟩ := by
  induction s with
  | nil => rfl
  | cons c s ih =>
    have hstep : parse_step ⟨parts, [], false, false, false⟩ c
        = ⟨parts, [], false, false, false⟩ := by
      rcases h c (List.mem_cons_self _ _) with hc | hc <;> subst hc <;>
        simp +decide [parse_step]
    rw [parse_loop_cons, hstep]
    exact ih (fun x hx => h x (List.mem_cons_of_mem _ hx))

/-- Plain characters are appended to `current`, in any quoting state. -/
theorem parse_loop_plain (w : CString) (h : ∀ c ∈ w, plain c)
    (parts : List CString) (cur : CString) (sq dq : Bool) :
    parse_loop w ⟨parts, cur, sq, dq, false⟩ = ⟨parts, cur ++ w, sq, dq, false⟩ := by
  induction w generalizing cur with
  | nil => simp [parse_loop]
  | cons c w ih =>
    obtain ⟨h1, h2, h3, h4, h5⟩ := h c (List.mem_cons_self _ _)
    have hstep : parse_step ⟨parts, cur, sq, dq, false⟩ c
        = ⟨parts, cur ++ [c], sq, dq, false⟩ := by
      simp [parse_step, h1, h2, h3, h4, h5]
    rw [parse_loop_cons, hstep, ih (fun x hx => h x (List.mem_cons_of_mem _ hx))]
    simp

/-- Inside double quotes every character but the double quote and the backslash
is appended to `current`. -/
theorem parse_loop_in_double (s : CString) (h : ∀ c ∈ s, c ≠ DQUOTE ∧ c ≠ BACKSLASH)
    (parts : List CString) (cur : CString) :
    parse_loop s ⟨parts, cur, false, true, false⟩
      = ⟨parts, cur ++ s, false, true, false⟩ := by
  induction s generalizing cur with
  | nil => simp [parse_loop]
  | cons c s ih =>
    obtain ⟨h1, h2⟩ := h c (List.mem_cons_self _ _)
    have hstep : parse_step ⟨parts, cur, false, true, false⟩ c
        = ⟨parts, cur ++ [c], false, true, false⟩ := by
      simp [parse_step, h1, h2]
    rw [parse_loop_cons, hstep, ih (fun x hx => h x (List.mem_cons_of_mem _ hx))]
    simp

/-- Inside single quotes every character but the single quote is appended to
`current`. -/
theorem parse_loop_in_single (s : CString) (h : ∀ c ∈ s, c ≠ SQUOTE)
    (parts : List CString) (cur : CString) :
    parse_loop s ⟨parts, cur, true, false, false⟩
      = ⟨parts, cur ++ s, true, false, false⟩ := by
  induction s generalizing cur with
  | nil => simp [parse_loop]
  | cons c s ih =>
    have h1 := h c (List.mem_cons_self _ _)
    have hstep : parse_step ⟨parts, cur, true, false, false⟩ c
        = ⟨parts, cur ++ [c], true, false, false⟩ := by
      simp [parse_step, h1]
    rw [parse_loop_cons, hstep, ih (fun x hx => h x (List.mem_cons_of_mem _ hx))]
    simp

/-- After a backslash the next character is appended whatever it is. -/
theorem parse_step_escaped (c : Char) (parts : List CString) (cur : CString)
    (sq dq : Bool) :
    parse_step ⟨parts, cur, sq, dq, true⟩ c = ⟨parts, cur ++ [c], sq, dq, false⟩ := by
  simp [parse_step]

/-- On a non-empty string the tokenizer is the loop followed by the final push. -/
theorem parse_command_line_some (s : CString) (hs : s ≠ []) :
    parse_command_line (some s) = parse_finish (parse_loop s ParseState.init) := by
  cases s with
  | nil => exact absurd rfl hs
  | cons c s => rfl

/-- The loop and the final push on input without quotes and backslashes, started
outside quotes with `cur` pending: the pieces between blanks, `cur` glued in front
of the first one, empty pieces dropped. -/
theorem parse_finish_loop_unquoted (s : CString)
    (h : ∀ c ∈ s, c ≠ SQUOTE ∧ c ≠ DQUOTE ∧ c ≠ BACKSLASH)
    (parts : List CString) (cur : CString) :
    parse_finish (parse_loop s ⟨parts, cur, false, false, false⟩)
      = parts ++ (((s.splitOnP is_blank).modifyHead (fun t => cur ++ t)).filter
          (fun t => !t.isEmpty)) := by
  induction s generalizing parts cur with
  | nil =>
    cases cur <;> simp [parse_loop, parse_finish, List.splitOnP_nil]
  | cons c s ih =>
    obtain ⟨h1, h2, h3⟩ := h c (List.mem_cons_self _ _)
    have hs := fun x hx => h x (List.mem_cons_of_mem c hx)
    rw [parse_loop_cons, List.splitOnP_cons]
    by_cases hb : is_blank c = true
    · have hc : c = SPACE ∨ c = TAB := by simpa [is_blank] using hb
      cases cur with
      | nil =>
        have hstep : parse_step ⟨parts, [], false, false, false⟩ c
            = ⟨parts, [], false, false, false⟩ := by
          simp [parse_step, h1, h2, h3, hc]
        rw [hstep, ih hs]
        cases hsp : List.splitOnP is_blank s <;> simp [hb]
      | cons a cur =>
        have hstep : parse_step ⟨parts, a :: cur, false, false, false⟩ c
            = ⟨parts ++ [a :: cur], [], false, false, false⟩ := by
          simp [parse_step, h1, h2, h3, hc]
        rw [hstep, ih hs]
        cases hsp : List.splitOnP is_blank s <;> simp [hb]
    · have hc : ¬ (c = SPACE ∨ c = TAB) := by simpa [is_blank] using hb
      have hstep : parse_step ⟨parts, cur, false, false, false⟩ c
          = ⟨parts, cur ++ [c], false, false, false⟩ := by
        simp [parse_step, h1, h2, h3, hc]
      rw [hstep, ih hs]
      cases hsp : List.splitOnP is_blank s <;> simp [hb]

/-! ## Tokenizer: contract -/

/-- C1: for a command line that is null, empty, or made only of spaces and tabs,
`parse_command_line` returns no token, and `StartProcessLinux` returns null having
made no system call at all (no pipe, no fork), whatever cwd, sandbox and id are. -/
theorem blank_command_line_rejected (command_line : Option CString)
    (h : ∀ s, command_line = some s → ∀ c ∈ s, c = SPACE ∨ c = TAB) :
    parse_command_line command_line = [] ∧
    ∀ (cwd : Option CString) (sandbox : Bool) (id : Option CString) (os : SysOutcomes),
      StartProcessLinux command_line cwd sandbox id os = { trace := [], ret := Ret.null } := by
  have hp : parse_command_line command_line = [] := by
    cases command_line with
    | none => rfl
    | some s =>
      cases s with
      | nil => rfl
      | cons c s =>
        rw [parse_command_line_some _ (List.cons_ne_nil c s), ParseState.init,
          parse_loop_blank _ (h _ rfl)]
        rfl
  refine ⟨hp, ?_⟩
  intro cwd sandbox id os
  simp [StartProcessLinux, hp]

/-- C1 at the command line made of a space, a tab and a space. -/
theorem blank_command_line_rejected_witness :
    parse_command_line (some [SPACE, TAB, SPACE]) = [] ∧
    ∀ (cwd : Option CString) (sandbox : Bool) (id : Option CString) (os : SysOutcomes),
      StartProcessLinux (some [SPACE, TAB, SPACE]) cwd sandbox id os
        = { trace := [], ret := Ret.null } :=
  blank_command_line_rejected (some [SPACE, TAB, SPACE])
    (by intro s hs; cases hs; decide)

/-- C2: a non-empty plain word `w`, one space, then a non-empty `s` without double
quote and backslash enclosed in double quotes, tokenizes to exactly `[w, s]`. -/
theorem double_quotes_keep_blanks (w s : CString) (hw : w ≠ []) (hs : s ≠ [])
    (hwc : ∀ c ∈ w, plain c) (hsc : ∀ c ∈ s, c ≠ DQUOTE ∧ c ≠ BACKSLASH) :
    parse_command_line (some (w ++ [SPACE] ++ [DQUOTE] ++ s ++ [DQUOTE])) = [w, s] := by
  rw [parse_command_line_some _ (by simp), ParseState.init]
  simp only [parse_loop_append, parse_loop_plain w hwc, List.nil_append]
  have h1 : parse_loop [SPACE] ⟨[], w, false, false, false⟩
      = ⟨[w], [], false, false, false⟩ := by
    simp +decide [parse_loop, parse_step, hw]
  have h2 : parse_loop [DQUOTE] ⟨[w], [], false, false, false⟩
      = ⟨[w], [], false, true, false⟩ := by
    simp +decide [parse_loop, parse_step]
  have h3 : parse_loop [DQUOTE] ⟨[w], s, false, true, false⟩
      = ⟨[w], s, false, false, false⟩ := by
    simp +decide [parse_loop, parse_step]
  rw [h1, h2, parse_loop_in_double s hsc, List.nil_append, h3]
  simp [parse_finish, hs]

/-- C2 at `echo "hello world"`. -/
theorem double_quotes_keep_blanks_witness :
    parse_command_line
        (some ("echo".toList ++ [SPACE] ++ [DQUOTE] ++ "hello world".toList ++ [DQUOTE]))
      = ["echo".toList, "hello world".toList] :=
  double_quotes_keep_blanks "echo".toList "hello world".toList (by decide) (by decide)
    (by decide) (by decide)

/-- C3: a non-empty `s` without single quote, enclosed in single quotes, tokenizes
to the one token `s`, every backslash, double quote, space and tab kept. -/
theorem single_quotes_keep_everything (s : CString) (hs : s ≠ [])
    (hsc : ∀ c ∈ s, c ≠ SQUOTE) :
    parse_command_line (some ([SQUOTE] ++ s ++ [SQUOTE])) = [s] := by
  rw [parse_command_line_some _ (by simp), ParseState.init]
  simp only [parse_loop_append]
  have h1 : parse_loop [SQUOTE] ⟨[], [], false, false, false⟩
      = ⟨[], [], true, false, false⟩ := by
    simp +decide [parse_loop, parse_step]
  have h2 : parse_loop [SQUOTE] ⟨[], s, true, false, false⟩
      = ⟨[], s, false, false, false⟩ := by
    simp +decide [parse_loop, parse_step]
  rw [h1, parse_loop_in_single s hsc, List.nil_append, h2]
  simp [parse_finish, hs]

/-- C3 at `'a b'`. -/
theorem single_quotes_keep_everything_witness :
    parse_command_line (some ([SQUOTE] ++ "a b".toList ++ [SQUOTE])) = ["a b".toList] :=
  single_quotes_keep_everything "a b".toList (by decide) (by decide)

/-- C4: for plain `u` and `v` and any character `c`, the text `u`, backslash, `c`,
`v` tokenizes to the single token `u c v`, and so does the same text enclosed in
double quotes. -/
theorem backslash_escapes_next_char (u v : CString) (c : Char)
    (hu : ∀ x ∈ u, plain x) (hv : ∀ x ∈ v, plain x) :
    parse_command_line (some (u ++ [BACKSLASH, c] ++ v)) = [u ++ [c] ++ v] ∧
    parse_command_line (some ([DQUOTE] ++ (u ++ [BACKSLASH, c] ++ v) ++ [DQUOTE]))
      = [u ++ [c] ++ v] := by
  have hesc : ∀ (cur : CString) (dq : Bool),
      parse_loop [BACKSLASH, c] ⟨[], cur, false, dq, false⟩
        = ⟨[], cur ++ [c], false, dq, false⟩ := by
    intro cur dq
    have hb : parse_step ⟨[], cur, false, dq, false⟩ BACKSLASH
        = ⟨[], cur, false, dq, true⟩ := by
      simp [parse_step]
    rw [parse_loop_cons, hb, parse_loop_cons, parse_step_escaped]
    rfl
  constructor
  · rw [parse_command_line_some _ (by simp), ParseState.init]
    simp only [parse_loop_append, parse_loop_plain u hu, List.nil_append, hesc,
      parse_loop_plain v hv]
    simp [parse_finish]
  · rw [parse_command_line_some _ (by simp), ParseState.init]
    have h1 : parse_loop [DQUOTE] ⟨[], [], false, false, false⟩
        = ⟨[], [], false, true, false⟩ := by
      simp +decide [parse_loop, parse_step]
    have h2 : ∀ cur : CString, parse_loop [DQUOTE] ⟨[], cur, false, true, false⟩
        = ⟨[], cur, false, false, false⟩ := by
      intro cur
      simp +decide [parse_loop, parse_step]
    simp only [parse_loop_append, h1, parse_loop_plain u hu, List.nil_append, hesc,
      parse_loop_plain v hv, h2]
    simp [parse_finish]

/-- C4 at `a\ b` (escaped space, first part) and at `"a\"b"` (escaped double
quote inside double quotes, second part). -/
theorem backslash_escapes_next_char_witness :
    parse_command_line (some ("a".toList ++ [BACKSLASH, SPACE] ++ "b".toList))
      = ["a".toList ++ [SPACE] ++ "b".toList] ∧
    parse_command_line
        (some ([DQUOTE] ++ ("a".toList ++ [BACKSLASH, DQUOTE] ++ "b".toList) ++ [DQUOTE]))
      = ["a".toList ++ [DQUOTE] ++ "b".toList] :=
  ⟨(backslash_escapes_next_char "a".toList "b".toList SPACE (by decide) (by decide)).1,
   (backslash_escapes_next_char "a".toList "b".toList DQUOTE (by decide) (by decide)).2⟩

/-- C5: on input without single quote, double quote and backslash the tokens are
exactly the maximal runs of characters other than space and tab, in input order. -/
theorem unquoted_tokens_are_maximal_runs (s : CString)
    (h : ∀ c ∈ s, c ≠ SQUOTE ∧ c ≠ DQUOTE ∧ c ≠ BACKSLASH) :
    parse_command_line (some s) = maximal_runs s := by
  cases s with
  | nil => simp [parse_command_line, maximal_runs, List.splitOnP_nil]
  | cons c s =>
    rw [parse_command_line_some _ (List.cons_ne_nil c s), ParseState.init,
      parse_finish_loop_unquoted _ h, maximal_runs]
    cases hsp : List.splitOnP is_blank (c :: s) <;> simp

/-- C5 at two spaces, `a`, tab and space, `b`, newline, `c`, space: leading,
trailing and repeated blanks vanish and the newline stays inside its token. -/
theorem unquoted_tokens_are_maximal_runs_witness :
    parse_command_line (some [SPACE, SPACE, 'a', TAB, SPACE, 'b', '\n', 'c', SPACE])
      = [['a'], ['b', '\n', 'c']] ∧
    maximal_runs [SPACE, SPACE, 'a', TAB, SPACE, 'b', '\n', 'c', SPACE]
      = [['a'], ['b', '\n', 'c']] :=
  ⟨(unquoted_tokens_are_maximal_runs
      [SPACE, SPACE, 'a', TAB, SPACE, 'b', '\n', 'c', SPACE] (by decide)).trans (by decide),
   by decide⟩

/-- C6: `parse_command_line` returns a token sequence on every input, and an
opening double quote or an opening single quote followed by a non-empty `s` without
quote and backslash, never closed, gives the one token `s`. -/
theorem unterminated_quote_keeps_token :
    (∀ command_line : Option CString, ∃ parts, parse_command_line command_line = parts) ∧
    ∀ s : CString, s ≠ [] → (∀ c ∈ s, c ≠ SQUOTE ∧ c ≠ DQUOTE ∧ c ≠ BACKSLASH) →
      parse_command_line (some ([DQUOTE] ++ s)) = [s] ∧
      parse_command_line (some ([SQUOTE] ++ s)) = [s] := by
  refine ⟨fun command_line => ⟨_, rfl⟩, ?_⟩
  intro s hs hsc
  have h1 : parse_loop [DQUOTE] ⟨[], [], false, false, false⟩
      = ⟨[], [], false, true, false⟩ := by
    simp +decide [parse_loop, parse_step]
  have h2 : parse_loop [SQUOTE] ⟨[], [], false, false, false⟩
      = ⟨[], [], true, false, false⟩ := by
    simp +decide [parse_loop, parse_step]
  constructor
  · rw [parse_command_line_some _ (by simp), ParseState.init, parse_loop_append, h1,
      parse_loop_in_double s (fun c hc => ⟨(hsc c hc).2.1, (hsc c hc).2.2⟩)]
    simp [parse_finish, hs]
  · rw [parse_command_line_some _ (by simp), ParseState.init, parse_loop_append, h2,
      parse_loop_in_single s (fun c hc => (hsc c hc).1)]
    simp [parse_finish, hs]

/-- C6 at an opening double quote and at an opening single quote, each followed by
`a b` and never closed. -/
theorem unterminated_quote_keeps_token_witness :
    parse_command_line (some ([DQUOTE] ++ "a b".toList)) = ["a b".toList] ∧
    parse_command_line (some ([SQUOTE] ++ "a b".toList)) = ["a b".toList] :=
  unterminated_quote_keeps_token.2 "a b".toList (by decide) (by decide)

/-! ## Sandbox argument vector -/

theorem foldl_add_storage (parsed : List CString) (b : ArgBuilder) :
    (parsed.foldl ArgBuilder.add b).storage = b.storage ++ parsed := by
  induction parsed generalizing b with
  | nil => simp
  | cons p ps ih => simp [ih, ArgBuilder.add]

/-- The vector of a sandboxed launch: the base profile, the working-directory rules
when a directory is given, then the parsed command. -/
theorem build_args_sandbox (parsed : List CString) (cwd : Option CString) :
    (build_args parsed cwd true).storage
      = spec_base_profile ++ (if cwd_given cwd = true then spec_cwd_rules (cstr cwd) else [])
          ++ parsed := by
  unfold build_args
  by_cases hc : cwd_given cwd = true
  · simp only [hc, if_true, foldl_add_storage]
    simp [ArgBuilder.add_bwrap_base, ArgBuilder.add, spec_base_profile, spec_cwd_rules]
  · simp only [hc, if_true, foldl_add_storage]
    simp [ArgBuilder.add_bwrap_base, ArgBuilder.add, spec_base_profile]

/-- Every `execvp` the launcher makes passes the built vector, null-terminated, with
its first element as the file to run. -/
theorem execvp_event_args (command_line cwd : Option CString) (sandbox : Bool)
    (id : Option CString) (os : SysOutcomes) (file : Option CString)
    (argv : List (Option CString))
    (h : Event.execvp file argv ∈ (StartProcessLinux command_line cwd sandbox id os).trace) :
    argv = (build_args (parse_command_line command_line) cwd sandbox).getArgs ∧
    file = argv.headD none := by
  obtain ⟨po, pe, px, fr, d1, d2, cd, ex, rs, g1, g2⟩ := os
  unfold StartProcessLinux at h
  by_cases hp : (parse_command_line command_line).isEmpty = true
  · simp [hp] at h
  · cases po with
    | none => simp [hp] at h
    | some po =>
      cases pe with
      | none => simp [hp] at h
      | some pe =>
        cases px with
        | none => simp [hp] at h
        | some px =>
          by_cases hf1 : fr = -1
          · simp [hp, hf1] at h
          · by_cases hf0 : fr = 0
            · simp only [hp, hf1, hf0, child_branch] at h
              cases ex <;> split_ifs at h <;> simp at h <;>
                (obtain ⟨h1, h2⟩ := h; subst h2; exact ⟨rfl, by simpa using h1⟩)
            · simp only [hp, hf1, hf0, parent_branch, set_nonblocking] at h
              split_ifs at h <;> simp at h

/-- In the child of a sandboxed launch whose pipes and `dup2` calls succeeded, the
launcher calls `execvp` on the built vector. -/
theorem sandboxed_child_reaches_execvp (command_line cwd id : Option CString)
    (os : SysOutcomes) (hne : parse_command_line command_line ≠ [])
    (po pe px : Int × Int) (hpo : os.pipeOut = some po) (hpe : os.pipeErr = some pe)
    (hpx : os.pipeExec = some px) (hfork : os.forkRet = 0)
    (hd1 : os.dup2Out.ret ≠ -1) (hd2 : os.dup2Err.ret ≠ -1) :
    Event.execvp ((build_args (parse_command_line command_line) cwd true).getArgs.headD none)
        (build_args (parse_command_line command_line) cwd true).getArgs
      ∈ (StartProcessLinux command_line cwd true id os).trace := by
  have hp : ¬ (parse_command_line command_line).isEmpty = true := by
    simpa [List.isEmpty_iff] using hne
  unfold StartProcessLinux
  simp only [hp, hpo, hpe, hpx, hfork, child_branch, hd1, hd2]
  cases os.execvpErrno <;> simp

/-- C7: when sandbox is requested the built argument vector begins with exactly
the 22 elements of the base profile, in order, for every command line, cwd and id;
and every `execvp` of such a launch runs `bwrap` on a vector beginning with them. -/
theorem sandbox_vector_begins_with_base_profile (command_line cwd id : Option CString)
    (os : SysOutcomes) :
    (build_args (parse_command_line command_line) cwd true).storage.take 22
      = spec_base_profile ∧
    ∀ (file : Option CString) (argv : List (Option CString)),
      Event.execvp file argv ∈ (StartProcessLinux command_line cwd true id os).trace →
      file = some "bwrap".toList ∧ argv.take 22 = spec_base_profile.map some := by
  have hlen : spec_base_profile.length = 22 := by decide
  have htake : (build_args (parse_command_line command_line) cwd true).storage.take 22
      = spec_base_profile := by
    rw [build_args_sandbox, List.append_assoc, ← hlen, List.take_left']
    rfl
  refine ⟨htake, ?_⟩
  intro file argv h
  obtain ⟨hargv, hfile⟩ := execvp_event_args _ _ _ _ _ _ _ h
  have h22 : argv.take 22 = spec_base_profile.map some := by
    rw [hargv, ArgBuilder.getArgs, build_args_sandbox, List.append_assoc, List.map_append,
      List.append_assoc]
    have hl : (spec_base_profile.map (some : CString → Option CString)).length = 22 := by
      decide
    rw [← hl, List.take_left']
    rfl
  refine ⟨?_, h22⟩
  rw [hfile]
  have h0 : argv.headD none = (argv.take 22).headD none := by
    cases argv <;> rfl
  rw [h0, h22]
  rfl

/-- C7 at the command line `ls -l` with cwd `/w`, seen from the child. -/
theorem sandbox_vector_begins_with_base_profile_witness :
    Event.execvp (some "bwrap".toList)
        ((spec_base_profile ++ spec_cwd_rules "/w".toList
            ++ ["ls".toList, "-l".toList]).map some ++ [none])
      ∈ (StartProcessLinux (some "ls -l".toList) (some "/w".toList) true none
          os_child_exec).trace ∧
    ((spec_base_profile ++ spec_cwd_rules "/w".toList
        ++ ["ls".toList, "-l".toList]).map some ++ [none]).take 22
      = spec_base_profile.map some :=
  have hmem : Event.execvp (some "bwrap".toList)
        ((spec_base_profile ++ spec_cwd_rules "/w".toList
            ++ ["ls".toList, "-l".toList]).map some ++ [none])
      ∈ (StartProcessLinux (some "ls -l".toList) (some "/w".toList) true none
          os_child_exec).trace := by decide
  ⟨hmem, ((sandbox_vector_begins_with_base_profile (some "ls -l".toList)
    (some "/w".toList) none os_child_exec).2 _ _ hmem).2⟩

/-- C8: when sandbox is requested and the command line tokenizes to the non-empty
`ts`, the vector is exactly the base profile, then `--bind cwd cwd --chdir cwd`, then
`ts` if cwd is a non-empty string, and exactly the base profile then `ts` if cwd is
null or empty; and the sandboxed child whose pipes and `dup2` calls succeeded hands
that vector, null-terminated, to `execvp`. -/
theorem sandbox_vector_exact (command_line cwd id : Option CString) (os : SysOutcomes)
    (ts : List CString) (hts : parse_command_line command_line = ts) (hne : ts ≠ []) :
    (∀ d : CString, cwd = some d → d ≠ [] →
      (build_args ts cwd true).storage = spec_base_profile ++ spec_cwd_rules d ++ ts) ∧
    (cwd = none ∨ cwd = some [] →
      (build_args ts cwd true).storage = spec_base_profile ++ ts) ∧
    (∀ po pe px : Int × Int, os.pipeOut = some po → os.pipeErr = some pe →
      os.pipeExec = some px → os.forkRet = 0 → os.dup2Out.ret ≠ -1 →
      os.dup2Err.ret ≠ -1 →
      Event.execvp (some "bwrap".toList) ((build_args ts cwd true).storage.map some ++ [none])
        ∈ (StartProcessLinux command_line cwd true id os).trace) := by
  refine ⟨?_, ?_, ?_⟩
  · intro d hd hdne
    subst hd
    cases d with
    | nil => exact absurd rfl hdne
    | cons a d => simp [build_args_sandbox, cwd_given, cstr]
  · intro hc
    rcases hc with hc | hc <;> subst hc <;> simp [build_args_sandbox, cwd_given]
  · intro po pe px hpo hpe hpx hfork hd1 hd2
    have h := sandboxed_child_reaches_execvp command_line cwd id os (hts ▸ hne) po pe px
      hpo hpe hpx hfork hd1 hd2
    rw [hts] at h
    have hhead : (build_args ts cwd true).getArgs.headD none = some "bwrap".toList := by
      rw [ArgBuilder.getArgs, build_args_sandbox]
      rfl
    rw [hhead] at h
    exact h

/-- C8 at the command line `ls -l` with cwd `/w`. -/
theorem sandbox_vector_exact_witness :
    (build_args ["ls".toList, "-l".toList] (some "/w".toList) true).storage
      = spec_base_profile ++ spec_cwd_rules "/w".toList ++ ["ls".toList, "-l".toList] :=
  (sandbox_vector_exact (some "ls -l".toList) (some "/w".toList) none os_child_exec
    ["ls".toList, "-l".toList] (by decide) (by decide)).1 "/w".toList rfl (by decide)

/-! ## Sandbox rules and the command line -/

/-- Bubblewrap reads the whole base profile as options and goes on with what follows it. -/
theorem bwrap_read_base (rest : List CString) :
    bwrap_read 0 (spec_base_profile.tail ++ rest)
      = (spec_base_profile.tail ++ (bwrap_read 0 rest).1, (bwrap_read 0 rest).2) := by
  rfl

/-- Bubblewrap reads the working-directory rules as options whatever the directory is
called, and goes on with what follows them. -/
theorem bwrap_read_cwd_rules (d : CString) (rest : List CString) :
    bwrap_read 0 (spec_cwd_rules d ++ rest)
      = (spec_cwd_rules d ++ (bwrap_read 0 rest).1, (bwrap_read 0 rest).2) := by
  rfl

/-- When the first token of the command does not begin with `--`, bubblewrap reads
exactly the base profile and the working-directory rules as its options, and the
command, unchanged, as the program to run. -/
theorem sandbox_options_fixed_when_program_has_no_dashes (cwd : Option CString)
    (t : CString) (ts : List CString) (ht : begins_with_dashes t = false) :
    bwrap_read 0 (build_args (t :: ts) cwd true).storage.tail
      = (spec_base_profile.tail
          ++ (if cwd_given cwd = true then spec_cwd_rules (cstr cwd) else []), t :: ts) := by
  have htail : (build_args (t :: ts) cwd true).storage.tail
      = spec_base_profile.tail
          ++ ((if cwd_given cwd = true then spec_cwd_rules (cstr cwd) else []) ++ t :: ts) := by
    rw [build_args_sandbox, List.append_assoc]
    rfl
  have hstop : bwrap_read 0 (t :: ts) = ([], t :: ts) := by
    simp [bwrap_read, ht]
  rw [htail, bwrap_read_base]
  by_cases hc : cwd_given cwd = true
  · simp only [hc, if_true, bwrap_read_cwd_rules, hstop, List.append_nil]
  · simp only [hc, Bool.false_eq_true, if_false, List.nil_append, hstop, List.append_nil]

/-- C9 fails at the sandboxed command line `--bind / / sh`: it tokenizes to
`--bind`, `/`, `/`, `sh`; bubblewrap reads the base profile followed by the rule
`--bind / /` as its options and `sh` as the program, whereas for the command line
`sh` it reads the base profile alone.  The two launches differ only in the command
line and present different option lists, and the program is not the first token.
The sandboxed child hands exactly that vector to `execvp`. -/
theorem command_line_adds_sandbox_rule :
    parse_command_line (some "--bind / / sh".toList)
      = ["--bind".toList, "/".toList, "/".toList, "sh".toList] ∧
    bwrap_read 0
        (build_args (parse_command_line (some "--bind / / sh".toList)) none true).storage.tail
      = (spec_base_profile.tail ++ ["--bind".toList, "/".toList, "/".toList],
          ["sh".toList]) ∧
    bwrap_read 0 (build_args (parse_command_line (some "sh".toList)) none true).storage.tail
      = (spec_base_profile.tail, ["sh".toList]) ∧
    Event.execvp (some "bwrap".toList)
        ((spec_base_profile ++ ["--bind".toList, "/".toList, "/".toList, "sh".toList]).map some
          ++ [none])
      ∈ (StartProcessLinux (some "--bind / / sh".toList) none true none os_child_exec).trace := by
  decide

/-! ## Launcher: when a handle is returned -/

/-- C10: in the calling process (`fork` does not return 0) `StartProcessLinux`
returns null if and only if the command line has no token, or one of the three
`pipe` calls fails, or `fork` fails, or the read of the exec-status channel returns
at least one byte; in that last case the parent has read the channel and its last
system call is `waitpid` on the forked pid; in every other case it returns a handle
recording the forked pid and the two read ends, with isRunning true and exitCode -1. -/
theorem launch_returns_null_iff (command_line cwd : Option CString) (sandbox : Bool)
    (id : Option CString) (os : SysOutcomes) (hparent : os.forkRet ≠ 0) :
    ((StartProcessLinux command_line cwd sandbox id os).ret = Ret.null ↔
      parse_command_line command_line = [] ∨ os.pipeOut = none ∨ os.pipeErr = none ∨
        os.pipeExec = none ∨ os.forkRet = -1 ∨ 0 < os.readSz) ∧
    (parse_command_line command_line ≠ [] → os.pipeOut ≠ none → os.pipeErr ≠ none →
      ∀ px : Int × Int, os.pipeExec = some px → os.forkRet ≠ -1 → 0 < os.readSz →
      (StartProcessLinux command_line cwd sandbox id os).ret = Ret.null ∧
      Event.read_int px.1 os.readSz ∈ (StartProcessLinux command_line cwd sandbox id os).trace ∧
      (StartProcessLinux command_line cwd sandbox id os).trace.getLast?
        = some (Event.waitpid os.forkRet)) ∧
    ((StartProcessLinux command_line cwd sandbox id os).ret ≠ Ret.null →
      ∃ po pe : Int × Int, os.pipeOut = some po ∧ os.pipeErr = some pe ∧
        (StartProcessLinux command_line cwd sandbox id os).ret
          = Ret.handle { pid := os.forkRet, fdOut := po.1, fdErr := pe.1,
                         isRunning := true, exitCode := -1 }) := by
  obtain ⟨po, pe, px, fr, d1, d2, cd, ex, rs, g1, g2⟩ := os
  simp only at hparent
  unfold StartProcessLinux
  by_cases hp : parse_command_line command_line = []
  · simp [hp]
  · have hp2 : ¬ (parse_command_line command_line).isEmpty = true := by
      simpa [List.isEmpty_iff] using hp
    cases po with
    | none => simp [hp2]
    | some po =>
      cases pe with
      | none => simp [hp2]
      | some pe =>
        cases px with
        | none => simp [hp2]
        | some px =>
          by_cases hf1 : fr = -1
          · simp [hp2, hf1]
          · by_cases hr : 0 < rs
            · simp [hp, hp2, hf1, hparent, parent_branch, hr]
            · simp [hp, hp2, hf1, hparent, parent_branch, hr]

/-- C10 at the command line `ls` seen from the parent of pid 4242: when the
exec-status read returns 4 bytes the launcher returns null after `waitpid`. -/
theorem launch_returns_null_iff_witness :
    (StartProcessLinux (some "ls".toList) none false none (os_parent 4)).ret = Ret.null ∧
    Event.read_int 7 4
      ∈ (StartProcessLinux (some "ls".toList) none false none (os_parent 4)).trace ∧
    (StartProcessLinux (some "ls".toList) none false none (os_parent 4)).trace.getLast?
      = some (Event.waitpid 4242) :=
  (launch_returns_null_iff (some "ls".toList) none false none (os_parent 4)
    (by decide)).2.1 (by decide) (by decide) (by decide) (7, 8) rfl (by decide) (by decide)

/-! ## Tokenizer: invariants and algebra -/

/-- On every string, empty or not, the tokenizer is the loop followed by the final push. -/
theorem parse_command_line_eq (s : CString) :
    parse_command_line (some s) = parse_finish (parse_loop s ParseState.init) := by
  cases s with
  | nil => rfl
  | cons c s => rfl

/-- One iteration keeps every pushed part non-empty. -/
theorem parse_step_parts_nonempty (st : ParseState) (c : Char)
    (h : ∀ t ∈ st.parts, t ≠ []) : ∀ t ∈ (parse_step st c).parts, t ≠ [] := by
  unfold parse_step
  split_ifs with h1 h2 h3 h4 h5 h6
  all_goals first
    | exact h
    | (intro t ht
       simp only [List.mem_append, List.mem_singleton] at ht
       rcases ht with ht | ht
       · exact h t ht
       · rw [ht]; exact h6)

/-- The loop keeps every pushed part non-empty. -/
theorem parse_loop_parts_nonempty (s : CString) (st : ParseState)
    (h : ∀ t ∈ st.parts, t ≠ []) : ∀ t ∈ (parse_loop s st).parts, t ≠ [] := by
  induction s generalizing st with
  | nil => exact h
  | cons c s ih =>
    rw [parse_loop_cons]
    exact ih _ (parse_step_parts_nonempty st c h)

/-- No token returned by the tokenizer is empty. -/
theorem parse_tokens_nonempty (command_line : Option CString) :
    ∀ t ∈ parse_command_line command_line, t ≠ [] := by
  cases command_line with
  | none => intro t ht; simp [parse_command_line] at ht
  | some s =>
    rw [parse_command_line_eq]
    have h := parse_loop_parts_nonempty s ParseState.init
      (by intro t ht; simp [ParseState.init] at ht)
    intro t ht
    unfold parse_finish at ht
    split_ifs at ht with hc
    · simp only [List.mem_append, List.mem_singleton] at ht
      rcases ht with ht | ht
      · exact h t ht
      · rw [ht]; exact hc
    · exact h t ht

/-- Parts pushed before the loop starts stay in front, untouched. -/
theorem parse_step_parts_prefix (pre : List CString) (st : ParseState) (c : Char) :
    parse_step { st with parts := pre ++ st.parts } c
      = { parse_step st c with parts := pre ++ (parse_step st c).parts } := by
  unfold parse_step
  split_ifs <;> simp

/-- Parts pushed before the loop starts stay in front, untouched. -/
theorem parse_loop_parts_prefix (pre : List CString) (s : CString) (st : ParseState) :
    parse_loop s { st with parts := pre ++ st.parts }
      = { parse_loop s st with parts := pre ++ (parse_loop s st).parts } := by
  induction s generalizing st with
  | nil => rfl
  | cons c s ih =>
    rw [parse_loop_cons, parse_loop_cons, parse_step_parts_prefix, ← ih]

/-- The final push after a loop started with parts `pre` already pushed. -/
theorem parse_finish_loop_prefix (pre : List CString) (s : CString) :
    parse_finish (parse_loop s ⟨pre, [], false, false, false⟩)
      = pre ++ parse_command_line (some s) := by
  have h := parse_loop_parts_prefix pre s ParseState.init
  simp only [ParseState.init, List.append_nil] at h
  rw [h, parse_command_line_eq]
  simp only [parse_finish, ParseState.init]
  split_ifs <;> simp

/-- A space or a tab met outside quotes pushes the pending token, if any. -/
theorem parse_step_separator (sep : Char) (hsep : sep = SPACE ∨ sep = TAB)
    (st : ParseState) (hs : st.inSingleQuote = false) (hd : st.inDoubleQuote = false)
    (he : st.escape = false) :
    parse_step st sep = ⟨parse_finish st, [], false, false, false⟩ := by
  obtain ⟨parts, cur, sq, dq, esc⟩ := st
  simp only at hs hd he
  subst hs hd he
  rcases hsep with h | h <;> subst h <;> cases cur <;>
    simp +decide [parse_step, parse_finish]

/-- Tokenization splits at a space or tab that the scan meets outside quotes. -/
theorem parse_split_at_separator (a b : CString) (sep : Char)
    (hsep : sep = SPACE ∨ sep = TAB) (ha : ends_unquoted a) :
    parse_command_line (some (a ++ [sep] ++ b))
      = parse_command_line (some a) ++ parse_command_line (some b) := by
  obtain ⟨h1, h2, h3⟩ := ha
  rw [parse_command_line_eq, parse_loop_append, parse_loop_append]
  have hstep : parse_loop [sep] (parse_loop a ParseState.init)
      = ⟨parse_finish (parse_loop a ParseState.init), [], false, false, false⟩ := by
    rw [parse_loop_cons, parse_step_separator sep hsep _ h1 h2 h3]
    rfl
  rw [hstep, parse_finish_loop_prefix, parse_command_line_eq a]

/-- An argument written with a backslash before each character is appended whole to
the pending token. -/
theorem parse_loop_escape_all (t : CString) (parts : List CString) (cur : CString) :
    parse_loop (escape_all t) ⟨parts, cur, false, false, false⟩
      = ⟨parts, cur ++ t, false, false, false⟩ := by
  induction t generalizing cur with
  | nil => simp [escape_all, parse_loop]
  | cons c t ih =>
    have hb : parse_step ⟨parts, cur, false, false, false⟩ BACKSLASH
        = ⟨parts, cur, false, false, true⟩ := by
      simp [parse_step]
    have hcons : escape_all (c :: t) = BACKSLASH :: c :: escape_all t := by
      simp [escape_all]
    rw [hcons, parse_loop_cons, hb, parse_loop_cons, parse_step_escaped, ih]
    simp

/-- The loop on the command line written for `ts`, started with `parts` pushed. -/
theorem parse_finish_loop_command_line_of (ts : List CString) (h : ∀ t ∈ ts, t ≠ [])
    (parts : List CString) :
    parse_finish (parse_loop (command_line_of ts) ⟨parts, [], false, false, false⟩)
      = parts ++ ts := by
  induction ts generalizing parts with
  | nil =>
    have hc : command_line_of [] = [] := rfl
    simp [hc, parse_loop, parse_finish]
  | cons t ts ih =>
    have ht : t ≠ [] := h t (List.mem_cons_self _ _)
    cases ts with
    | nil =>
      have hc : command_line_of [t] = escape_all t := by
        simp [command_line_of, List.intercalate]
      rw [hc, parse_loop_escape_all]
      simp [parse_finish, ht]
    | cons t2 ts =>
      have hc : command_line_of (t :: t2 :: ts)
          = escape_all t ++ [SPACE] ++ command_line_of (t2 :: ts) := by
        simp [command_line_of, List.intercalate]
      have hsp : parse_loop [SPACE] ⟨parts, [] ++ t, false, false, false⟩
          = ⟨parts ++ [t], [], false, false, false⟩ := by
        rw [parse_loop_cons, parse_step_separator SPACE (Or.inl rfl) _ rfl rfl rfl]
        simp [parse_finish, ht, parse_loop]
      rw [hc, parse_loop_append, parse_loop_append, parse_loop_escape_all, hsp,
        ih (fun x hx => h x (List.mem_cons_of_mem _ hx))]
      simp

/-- C16: no token returned by `parse_command_line` is empty, on any input; so a
quoted empty argument is dropped: two double quotes and two single quotes return no
token, and `echo` followed by a space and two double quotes returns the token `echo`. -/
theorem no_empty_token :
    (∀ (command_line : Option CString), ∀ t ∈ parse_command_line command_line,
      1 ≤ t.length) ∧
    parse_command_line (some [DQUOTE, DQUOTE]) = [] ∧
    parse_command_line (some [SQUOTE, SQUOTE]) = [] ∧
    parse_command_line (some ("echo".toList ++ [SPACE, DQUOTE, DQUOTE])) = ["echo".toList] := by
  refine ⟨?_, by decide, by decide, by decide⟩
  intro command_line t ht
  exact List.length_pos.mpr (parse_tokens_nonempty command_line t ht)

/-- C16 at the command line `a ""  'b c'`: its two tokens `a` and `b c` are
non-empty. -/
theorem no_empty_token_witness :
    1 ≤ "a".toList.length ∧ 1 ≤ "b c".toList.length :=
  ⟨no_empty_token.1
      (some ("a".toList ++ [SPACE, DQUOTE, DQUOTE, SPACE, SPACE, SQUOTE] ++ "b c".toList
        ++ [SQUOTE])) "a".toList (by decide),
   no_empty_token.1
      (some ("a".toList ++ [SPACE, DQUOTE, DQUOTE, SPACE, SPACE, SQUOTE] ++ "b c".toList
        ++ [SQUOTE])) "b c".toList (by decide)⟩

/-- C17: for every list `ts` of non-empty strings, the command line that writes each
string with a backslash before each of its characters and joins them with single
spaces tokenizes to exactly `ts`. -/
theorem command_line_round_trip (ts : List CString) (h : ∀ t ∈ ts, t ≠ []) :
    parse_command_line (some (command_line_of ts)) = ts := by
  rw [parse_command_line_eq, ParseState.init, parse_finish_loop_command_line_of ts h]
  simp

/-- C17 at the vector of `a b` (with a space), a lone double quote, and a lone
backslash. -/
theorem command_line_round_trip_witness :
    parse_command_line (some (command_line_of ["a b".toList, [DQUOTE], [BACKSLASH]]))
      = ["a b".toList, [DQUOTE], [BACKSLASH]] :=
  command_line_round_trip ["a b".toList, [DQUOTE], [BACKSLASH]] (by decide)

/-- C18: when the scan of `a` ends outside quotes with no pending escape, the
tokens of `a`, a space, `b` are the tokens of `a` followed by the tokens of `b`, and
the same holds with a tab; every `a` without quote and backslash is such an `a`. -/
theorem tokenization_splits_at_separator (a b : CString) :
    (ends_unquoted a →
      parse_command_line (some (a ++ [SPACE] ++ b))
        = parse_command_line (some a) ++ parse_command_line (some b) ∧
      parse_command_line (some (a ++ [TAB] ++ b))
        = parse_command_line (some a) ++ parse_command_line (some b)) ∧
    ((∀ c ∈ a, c ≠ SQUOTE ∧ c ≠ DQUOTE ∧ c ≠ BACKSLASH) → ends_unquoted a) := by
  constructor
  · intro ha
    exact ⟨parse_split_at_separator a b SPACE (Or.inl rfl) ha,
      parse_split_at_separator a b TAB (Or.inr rfl) ha⟩
  · intro h
    have key : ∀ (s : CString), (∀ c ∈ s, c ≠ SQUOTE ∧ c ≠ DQUOTE ∧ c ≠ BACKSLASH) →
        ∀ st : ParseState, st.inSingleQuote = false → st.inDoubleQuote = false →
          st.escape = false →
          (parse_loop s st).inSingleQuote = false ∧ (parse_loop s st).inDoubleQuote = false ∧
          (parse_loop s st).escape = false := by
      intro s
      induction s with
      | nil => intro _ st h1 h2 h3; exact ⟨h1, h2, h3⟩
      | cons c s ih =>
        intro hs st h1 h2 h3
        obtain ⟨c1, c2, c3⟩ := hs c (List.mem_cons_self _ _)
        rw [parse_loop_cons]
        have hstep : (parse_step st c).inSingleQuote = false ∧
            (parse_step st c).inDoubleQuote = false ∧ (parse_step st c).escape = false := by
          unfold parse_step
          split_ifs <;> simp_all
        exact ih (fun x hx => hs x (List.mem_cons_of_mem _ hx)) _ hstep.1 hstep.2.1 hstep.2.2
    exact key a h ParseState.init rfl rfl rfl

/-- C18 at `a` = `x "y z"` (quotes closed) and `b` = `w`, split at a space and at a
tab. -/
theorem tokenization_splits_at_separator_witness :
    parse_command_line
        (some (("x".toList ++ [SPACE, DQUOTE] ++ "y z".toList ++ [DQUOTE]) ++ [SPACE]
          ++ "w".toList))
      = parse_command_line (some ("x".toList ++ [SPACE, DQUOTE] ++ "y z".toList ++ [DQUOTE]))
          ++ parse_command_line (some "w".toList) ∧
    parse_command_line
        (some (("x".toList ++ [SPACE, DQUOTE] ++ "y z".toList ++ [DQUOTE]) ++ [TAB]
          ++ "w".toList))
      = parse_command_line (some ("x".toList ++ [SPACE, DQUOTE] ++ "y z".toList ++ [DQUOTE]))
          ++ parse_command_line (some "w".toList) :=
  (tokenization_splits_at_separator
    ("x".toList ++ [SPACE, DQUOTE] ++ "y z".toList ++ [DQUOTE]) "w".toList).1 (by decide)

/-! ## Windows command-line quoting -/

/-- The search `find` returns `npos` exactly when the character does not occur. -/
theorem wfind_eq_none (s : WString) (c : Char) : wfind s c = none ↔ c ∉ s := by
  induction s with
  | nil => simp [wfind]
  | cons x rest ih =>
    by_cases hx : x = c
    · simp [wfind, hx]
    · have hx2 : ¬ c = x := fun h => hx h.symm
      simp [wfind, hx, hx2, ih]

/-- The quoting loop appends the replacement of each character, in order. -/
theorem foldl_append_quoted_step (arg acc : WString) :
    arg.foldl append_quoted_step acc
      = acc ++ arg.flatMap (fun c => if c = DQUOTE then [BACKSLASH, DQUOTE] else [c]) := by
  induction arg generalizing acc with
  | nil => simp
  | cons c arg ih =>
    rw [List.foldl_cons, ih]
    by_cases hc : c = DQUOTE <;> simp [append_quoted_step, hc]

/-- C19: `AppendArgumentWin` keeps the previous content of `cmdLine` as a prefix and
appends one space, only when `cmdLine` was non-empty, followed by the encoding of
`arg` that the specification describes. -/
theorem append_argument_win_spec (cmdLine arg : WString) :
    AppendArgumentWin cmdLine arg
      = cmdLine ++ (if cmdLine = [] then [] else [SPACE]) ++ spec_win_encoding arg := by
  unfold AppendArgumentWin spec_win_encoding
  simp only [wfind_eq_none, foldl_append_quoted_step]
  by_cases h0 : cmdLine = [] <;>
    by_cases h1 : (arg.length ≥ 2 ∧ arg.head? = some DQUOTE ∧ arg.getLast? = some DQUOTE) <;>
    by_cases h2 : (SPACE ∉ arg ∧ TAB ∉ arg) <;>
    simp [h0, h1, h2]

/-! ## Launcher: the vector handed to `execvp` without sandbox -/

/-- Without sandbox the built vector is the parsed command line itself. -/
theorem build_args_unsandboxed (parsed : List CString) (cwd : Option CString) :
    (build_args parsed cwd false).storage = parsed := by
  simp [build_args, foldl_add_storage]

/-- In a child whose pipes and `dup2` calls succeeded, and whose `chdir`, when it is
called, succeeded, the launcher calls `execvp` on the built vector. -/
theorem child_reaches_execvp (command_line cwd : Option CString) (sandbox : Bool)
    (id : Option CString) (os : SysOutcomes) (hne : parse_command_line command_line ≠ [])
    (po pe px : Int × Int) (hpo : os.pipeOut = some po) (hpe : os.pipeErr = some pe)
    (hpx : os.pipeExec = some px) (hfork : os.forkRet = 0)
    (hd1 : os.dup2Out.ret ≠ -1) (hd2 : os.dup2Err.ret ≠ -1) (hcd : os.chdirRet.ret ≠ -1) :
    Event.execvp ((build_args (parse_command_line command_line) cwd sandbox).getArgs.headD none)
        (build_args (parse_command_line command_line) cwd sandbox).getArgs
      ∈ (StartProcessLinux command_line cwd sandbox id os).trace := by
  have hp : ¬ (parse_command_line command_line).isEmpty = true := by
    simpa [List.isEmpty_iff] using hne
  unfold StartProcessLinux
  simp only [hp, hpo, hpe, hpx, hfork, child_branch, hd1, hd2, hcd]
  cases os.execvpErrno <;> split_ifs <;> first | contradiction | simp

/-- C15: when sandbox is false and the command line tokenizes to the non-empty `ts`,
the vector built is the tokens of `ts` in order followed by one null terminator, of
length `|ts| + 1`, whatever cwd and id are; every `execvp` of the launch receives that
vector and, as the program, the first token, which is a non-empty string; and the
child whose pipes, `dup2` and `chdir` calls succeeded does call `execvp`. -/
theorem unsandboxed_vector_is_tokens (command_line cwd id : Option CString)
    (os : SysOutcomes) (ts : List CString)
    (hts : parse_command_line command_line = ts) (hne : ts ≠ []) :
    (build_args ts cwd false).getArgs = ts.map some ++ [none] ∧
    (build_args ts cwd false).getArgs.length = ts.length + 1 ∧
    (∀ (file : Option CString) (argv : List (Option CString)),
      Event.execvp file argv ∈ (StartProcessLinux command_line cwd false id os).trace →
      argv = ts.map some ++ [none] ∧
      ∃ t : CString, ts.head? = some t ∧ file = some t ∧ t ≠ []) ∧
    (∀ po pe px : Int × Int, os.pipeOut = some po → os.pipeErr = some pe →
      os.pipeExec = some px → os.forkRet = 0 → os.dup2Out.ret ≠ -1 →
      os.dup2Err.ret ≠ -1 → os.chdirRet.ret ≠ -1 →
      Event.execvp (ts.head?) (ts.map some ++ [none])
        ∈ (StartProcessLinux command_line cwd false id os).trace) := by
  have hargs : (build_args ts cwd false).getArgs = ts.map some ++ [none] := by
    rw [ArgBuilder.getArgs, build_args_unsandboxed]
  have hhead : (ts.map some ++ [none]).headD none = ts.head? := by
    cases ts with
    | nil => exact absurd rfl hne
    | cons t ts => rfl
  refine ⟨hargs, by rw [hargs]; simp, ?_, ?_⟩
  · intro file argv h
    obtain ⟨hargv, hfile⟩ := execvp_event_args _ _ _ _ _ _ _ h
    rw [hts, hargs] at hargv
    refine ⟨hargv, ?_⟩
    cases hts2 : ts with
    | nil => exact absurd hts2 hne
    | cons t rest =>
      refine ⟨t, rfl, ?_, ?_⟩
      · rw [hfile, hargv, hts2]; rfl
      · apply parse_tokens_nonempty command_line t
        rw [hts, hts2]
        exact List.mem_cons_self _ _
  · intro po pe px hpo hpe hpx hfork hd1 hd2 hcd
    have h := child_reaches_execvp command_line cwd false id os (hts ▸ hne) po pe px
      hpo hpe hpx hfork hd1 hd2 hcd
    rw [hts, hargs, hhead] at h
    exact h

/-- C15 at the command line `ls -l` with cwd `/w`, seen from the child. -/
theorem unsandboxed_vector_is_tokens_witness :
    Event.execvp (some "ls".toList) [some "ls".toList, some "-l".toList, none]
      ∈ (StartProcessLinux (some "ls -l".toList) (some "/w".toList) false none
          os_child_exec).trace :=
  (unsandboxed_vector_is_tokens (some "ls -l".toList) (some "/w".toList) none os_child_exec
    ["ls".toList, "-l".toList] (by decide) (by decide)).2.2.2 (3, 4) (5, 6) (7, 8)
    rfl rfl rfl rfl (by decide) (by decide) (by decide)

/-! ## Launcher: open descriptors in the parent -/

/-- The child branch never returns to the caller: it ends in `_exit` or in the new
program image. -/
theorem child_branch_ret (exec_args : List (Option CString)) (cwd : Option CString)
    (sandbox : Bool) (po pe px : Int × Int) (os : SysOutcomes) :
    (child_branch exec_args cwd sandbox po pe px os).ret ≠ Ret.null ∧
    ∀ h : ProcessHandle, (child_branch exec_args cwd sandbox po pe px os).ret ≠ Ret.handle h := by
  unfold child_branch
  cases os.execvpErrno <;> split_ifs <;> simp

/-! ### The run of the launcher, case by case -/

theorem start_no_token (command_line cwd : Option CString) (sandbox : Bool)
    (id : Option CString) (os : SysOutcomes) (hp : parse_command_line command_line = []) :
    StartProcessLinux command_line cwd sandbox id os = ⟨[], Ret.null⟩ := by
  simp [StartProcessLinux, hp]

theorem start_pipe_out_fails (command_line cwd : Option CString) (sandbox : Bool)
    (id : Option CString) (os : SysOutcomes) (hp : parse_command_line command_line ≠ [])
    (hpo : os.pipeOut = none) :
    StartProcessLinux command_line cwd sandbox id os = ⟨[Event.pipe none], Ret.null⟩ := by
  have hp2 : ¬ (parse_command_line command_line).isEmpty = true := by
    simpa [List.isEmpty_iff] using hp
  simp [StartProcessLinux, hp2, hpo]

theorem start_pipe_err_fails (command_line cwd : Option CString) (sandbox : Bool)
    (id : Option CString) (os : SysOutcomes) (hp : parse_command_line command_line ≠ [])
    (po : Int × Int) (hpo : os.pipeOut = some po) (hpe : os.pipeErr = none) :
    StartProcessLinux command_line cwd sandbox id os
      = ⟨[Event.pipe (some po), Event.pipe none, Event.close po.1, Event.close po.2],
          Ret.null⟩ := by
  have hp2 : ¬ (parse_command_line command_line).isEmpty = true := by
    simpa [List.isEmpty_iff] using hp
  simp [StartProcessLinux, hp2, hpo, hpe]

theorem start_pipe_exec_fails (command_line cwd : Option CString) (sandbox : Bool)
    (id : Option CString) (os : SysOutcomes) (hp : parse_command_line command_line ≠ [])
    (po pe : Int × Int) (hpo : os.pipeOut = some po) (hpe : os.pipeErr = some pe)
    (hpx : os.pipeExec = none) :
    StartProcessLinux command_line cwd sandbox id os
      = ⟨[Event.pipe (some po), Event.pipe (some pe), Event.pipe none,
          Event.close po.1, Event.close po.2, Event.close pe.1, Event.close pe.2],
          Ret.null⟩ := by
  have hp2 : ¬ (parse_command_line command_line).isEmpty = true := by
    simpa [List.isEmpty_iff] using hp
  simp [StartProcessLinux, hp2, hpo, hpe, hpx]

theorem start_fork_fails (command_line cwd : Option CString) (sandbox : Bool)
    (id : Option CString) (os : SysOutcomes) (hp : parse_command_line command_line ≠ [])
    (po pe px : Int × Int) (hpo : os.pipeOut = some po) (hpe : os.pipeErr = some pe)
    (hpx : os.pipeExec = some px) (hf : os.forkRet = -1) :
    StartProcessLinux command_line cwd sandbox id os
      = ⟨[Event.pipe (some po), Event.pipe (some pe), Event.pipe (some px),
          Event.fcntl_setfd_cloexec px.2, Event.fork (-1),
          Event.close po.1, Event.close po.2, Event.close pe.1, Event.close pe.2,
          Event.close px.1, Event.close px.2], Ret.null⟩ := by
  have hp2 : ¬ (parse_command_line command_line).isEmpty = true := by
    simpa [List.isEmpty_iff] using hp
  simp [StartProcessLinux, hp2, hpo, hpe, hpx, hf]

theorem start_child (command_line cwd : Option CString) (sandbox : Bool)
    (id : Option CString) (os : SysOutcomes) (hp : parse_command_line command_line ≠ [])
    (po pe px : Int × Int) (hpo : os.pipeOut = some po) (hpe : os.pipeErr = some pe)
    (hpx : os.pipeExec = some px) (hf : os.forkRet = 0) :
    StartProcessLinux command_line cwd sandbox id os
      = ⟨[Event.pipe (some po), Event.pipe (some pe), Event.pipe (some px),
          Event.fcntl_setfd_cloexec px.2, Event.fork 0]
          ++ (child_branch (build_args (parse_command_line command_line) cwd sandbox).getArgs
                cwd sandbox po pe px os).trace,
         (child_branch (build_args (parse_command_line command_line) cwd sandbox).getArgs
                cwd sandbox po pe px os).ret⟩ := by
  have hp2 : ¬ (parse_command_line command_line).isEmpty = true := by
    simpa [List.isEmpty_iff] using hp
  simp [StartProcessLinux, hp2, hpo, hpe, hpx, hf]

theorem start_parent_exec_failed (command_line cwd : Option CString) (sandbox : Bool)
    (id : Option CString) (os : SysOutcomes) (hp : parse_command_line command_line ≠ [])
    (po pe px : Int × Int) (hpo : os.pipeOut = some po) (hpe : os.pipeErr = some pe)
    (hpx : os.pipeExec = some px) (hf1 : os.forkRet ≠ -1) (hf0 : os.forkRet ≠ 0)
    (hr : 0 < os.readSz) :
    StartProcessLinux command_line cwd sandbox id os
      = ⟨[Event.pipe (some po), Event.pipe (some pe), Event.pipe (some px),
          Event.fcntl_setfd_cloexec px.2, Event.fork os.forkRet,
          Event.close po.2, Event.close pe.2, Event.close px.2,
          Event.read_int px.1 os.readSz, Event.close px.1,
          Event.close po.1, Event.close pe.1, Event.waitpid os.forkRet], Ret.null⟩ := by
  have hp2 : ¬ (parse_command_line command_line).isEmpty = true := by
    simpa [List.isEmpty_iff] using hp
  simp [StartProcessLinux, hp2, hpo, hpe, hpx, hf1, hf0, parent_branch, hr]

theorem start_parent_handle (command_line cwd : Option CString) (sandbox : Bool)
    (id : Option CString) (os : SysOutcomes) (hp : parse_command_line command_line ≠ [])
    (po pe px : Int × Int) (hpo : os.pipeOut = some po) (hpe : os.pipeErr = some pe)
    (hpx : os.pipeExec = some px) (hf1 : os.forkRet ≠ -1) (hf0 : os.forkRet ≠ 0)
    (hr : ¬ 0 < os.readSz) :
    StartProcessLinux command_line cwd sandbox id os
      = ⟨[Event.pipe (some po), Event.pipe (some pe), Event.pipe (some px),
          Event.fcntl_setfd_cloexec px.2, Event.fork os.forkRet,
          Event.close po.2, Event.close pe.2, Event.close px.2,
          Event.read_int px.1 os.readSz, Event.close px.1]
          ++ set_nonblocking po.1 os.getflOut ++ set_nonblocking pe.1 os.getflErr,
         Ret.handle { pid := os.forkRet, fdOut := po.1, fdErr := pe.1, isRunning := true,
                      exitCode := -1 }⟩ := by
  have hp2 : ¬ (parse_command_line command_line).isEmpty = true := by
    simpa [List.isEmpty_iff] using hp
  simp [StartProcessLinux, hp2, hpo, hpe, hpx, hf1, hf0, parent_branch, hr]

/-! ### Descriptor sets -/

/-- Closing a descriptor that was just opened gives back the set before. -/
theorem erase_insert_fresh (a : Int) (s : Finset Int) (h : a ∉ s) :
    (insert a s).erase a = s := Finset.erase_insert h

/-- Closing one descriptor leaves a different open one in place. -/
theorem erase_insert_other (a b : Int) (s : Finset Int) (h : a ≠ b) :
    (insert b s).erase a = insert b (s.erase a) := Finset.erase_insert_of_ne h.symm

/-- Setting the non-blocking flag opens and closes nothing. -/
theorem open_fds_set_nonblocking (s : Finset Int) (fd flags : Int) :
    open_fds s (set_nonblocking fd flags) = s := by
  unfold set_nonblocking
  split_ifs <;> rfl

theorem open_fds_append (s : Finset Int) (t1 t2 : List Event) :
    open_fds s (t1 ++ t2) = open_fds (open_fds s t1) t2 := by
  simp [open_fds, List.foldl_append]


/-- Freshness of the pipes of a trace gives freshness of the pipes of any prefix. -/
theorem pipes_fresh_prefix (s : Finset Int) (t1 t2 : List Event)
    (h : pipes_fresh s (t1 ++ t2) = true) : pipes_fresh s t1 = true := by
  induction t1 generalizing s with
  | nil => rfl
  | cons e t1 ih =>
    simp only [List.cons_append, pipes_fresh, Bool.and_eq_true] at h ⊢
    exact ⟨h.1, ih _ h.2⟩

/-- What freshness of one pipe says. -/
theorem fresh_one (s : Finset Int) (r1 w1 : Int)
    (h : pipes_fresh s [Event.pipe (some (r1, w1))] = true) :
    r1 ≠ w1 ∧ r1 ∉ s ∧ w1 ∉ s := by
  simpa [pipes_fresh] using h

/-- What freshness of two pipes in a row says. -/
theorem fresh_two (s : Finset Int) (r1 w1 r2 w2 : Int)
    (h : pipes_fresh s [Event.pipe (some (r1, w1)), Event.pipe (some (r2, w2))] = true) :
    (r1 ≠ w1 ∧ r1 ∉ s ∧ w1 ∉ s) ∧
    (r2 ≠ w2 ∧ r2 ≠ r1 ∧ r2 ≠ w1 ∧ r2 ∉ s ∧ w2 ≠ r1 ∧ w2 ≠ w1 ∧ w2 ∉ s) := by
  simp [pipes_fresh, fd_step] at h
  tauto

/-- What freshness of three pipes in a row says. -/
theorem fresh_three (s : Finset Int) (r1 w1 r2 w2 r3 w3 : Int)
    (h : pipes_fresh s [Event.pipe (some (r1, w1)), Event.pipe (some (r2, w2)),
      Event.pipe (some (r3, w3))] = true) :
    (r1 ≠ w1 ∧ r1 ∉ s ∧ w1 ∉ s) ∧
    (r2 ≠ w2 ∧ r2 ≠ r1 ∧ r2 ≠ w1 ∧ r2 ∉ s ∧ w2 ≠ r1 ∧ w2 ≠ w1 ∧ w2 ∉ s) ∧
    (r3 ≠ w3 ∧ r3 ≠ r1 ∧ r3 ≠ w1 ∧ r3 ≠ r2 ∧ r3 ≠ w2 ∧ r3 ∉ s ∧
      w3 ≠ r1 ∧ w3 ≠ w1 ∧ w3 ≠ r2 ∧ w3 ≠ w2 ∧ w3 ∉ s) := by
  simp [pipes_fresh, fd_step] at h
  tauto

/-- The second `pipe` failed: both ends of the first are closed again. -/
theorem open_fds_pipe_err_fails (s : Finset Int) (r1 w1 : Int)
    (h : pipes_fresh s [Event.pipe (some (r1, w1))] = true) :
    open_fds s [Event.pipe (some (r1, w1)), Event.pipe none, Event.close r1, Event.close w1]
      = s := by
  obtain ⟨hrw, hr, hw⟩ := fresh_one s r1 w1 h
  simp only [open_fds, List.foldl, fd_step]
  ext x
  simp only [Finset.mem_erase, Finset.mem_insert]
  constructor
  · tauto
  · intro hx
    have e1 : x ≠ r1 := by rintro rfl; exact hr hx
    have e2 : x ≠ w1 := by rintro rfl; exact hw hx
    tauto

/-- The third `pipe` failed: the four ends of the first two are closed again. -/
theorem open_fds_pipe_exec_fails (s : Finset Int) (r1 w1 r2 w2 : Int)
    (h : pipes_fresh s [Event.pipe (some (r1, w1)), Event.pipe (some (r2, w2))] = true) :
    open_fds s [Event.pipe (some (r1, w1)), Event.pipe (some (r2, w2)), Event.pipe none,
        Event.close r1, Event.close w1, Event.close r2, Event.close w2]
      = s := by
  obtain ⟨⟨hrw, hr, hw⟩, _, _, _, hr2, _, _, hw2⟩ := fresh_two s r1 w1 r2 w2 h
  simp only [open_fds, List.foldl, fd_step]
  ext x
  simp only [Finset.mem_erase, Finset.mem_insert]
  constructor
  · tauto
  · intro hx
    have e1 : x ≠ r1 := by rintro rfl; exact hr hx
    have e2 : x ≠ w1 := by rintro rfl; exact hw hx
    have e3 : x ≠ r2 := by rintro rfl; exact hr2 hx
    have e4 : x ≠ w2 := by rintro rfl; exact hw2 hx
    tauto

/-- After `fork` failed all six ends are closed again. -/
theorem open_fds_fork_fails (s : Finset Int) (r1 w1 r2 w2 r3 w3 : Int)
    (h : pipes_fresh s [Event.pipe (some (r1, w1)), Event.pipe (some (r2, w2)),
      Event.pipe (some (r3, w3))] = true) :
    open_fds s [Event.pipe (some (r1, w1)), Event.pipe (some (r2, w2)),
        Event.pipe (some (r3, w3)), Event.fcntl_setfd_cloexec w3, Event.fork (-1),
        Event.close r1, Event.close w1, Event.close r2, Event.close w2,
        Event.close r3, Event.close w3]
      = s := by
  obtain ⟨⟨_, hr, hw⟩, ⟨_, _, _, hr2, _, _, hw2⟩, _, _, _, _, _, hr3, _, _, _, _, hw3⟩ :=
    fresh_three s r1 w1 r2 w2 r3 w3 h
  simp only [open_fds, List.foldl, fd_step]
  ext x
  simp only [Finset.mem_erase, Finset.mem_insert]
  constructor
  · tauto
  · intro hx
    have e1 : x ≠ r1 := by rintro rfl; exact hr hx
    have e2 : x ≠ w1 := by rintro rfl; exact hw hx
    have e3 : x ≠ r2 := by rintro rfl; exact hr2 hx
    have e4 : x ≠ w2 := by rintro rfl; exact hw2 hx
    have e5 : x ≠ r3 := by rintro rfl; exact hr3 hx
    have e6 : x ≠ w3 := by rintro rfl; exact hw3 hx
    tauto

/-- The parent that saw the exec-status channel yield data closes all six ends. -/
theorem open_fds_parent_exec_failed (s : Finset Int) (r1 w1 r2 w2 r3 w3 pid n : Int)
    (h : pipes_fresh s [Event.pipe (some (r1, w1)), Event.pipe (some (r2, w2)),
      Event.pipe (some (r3, w3))] = true) :
    open_fds s [Event.pipe (some (r1, w1)), Event.pipe (some (r2, w2)),
        Event.pipe (some (r3, w3)), Event.fcntl_setfd_cloexec w3, Event.fork pid,
        Event.close w1, Event.close w2, Event.close w3, Event.read_int r3 n,
        Event.close r3, Event.close r1, Event.close r2, Event.waitpid pid]
      = s := by
  obtain ⟨⟨_, hr, hw⟩, ⟨_, _, _, hr2, _, _, hw2⟩, _, _, _, _, _, hr3, _, _, _, _, hw3⟩ :=
    fresh_three s r1 w1 r2 w2 r3 w3 h
  simp only [open_fds, List.foldl, fd_step]
  ext x
  simp only [Finset.mem_erase, Finset.mem_insert]
  constructor
  · tauto
  · intro hx
    have e1 : x ≠ r1 := by rintro rfl; exact hr hx
    have e2 : x ≠ w1 := by rintro rfl; exact hw hx
    have e3 : x ≠ r2 := by rintro rfl; exact hr2 hx
    have e4 : x ≠ w2 := by rintro rfl; exact hw2 hx
    have e5 : x ≠ r3 := by rintro rfl; exact hr3 hx
    have e6 : x ≠ w3 := by rintro rfl; exact hw3 hx
    tauto

/-- The parent that returns a handle keeps exactly the two read ends open. -/
theorem open_fds_parent_handle (s : Finset Int) (r1 w1 r2 w2 r3 w3 pid n : Int)
    (h : pipes_fresh s [Event.pipe (some (r1, w1)), Event.pipe (some (r2, w2)),
      Event.pipe (some (r3, w3))] = true) :
    open_fds s [Event.pipe (some (r1, w1)), Event.pipe (some (r2, w2)),
        Event.pipe (some (r3, w3)), Event.fcntl_setfd_cloexec w3, Event.fork pid,
        Event.close w1, Event.close w2, Event.close w3, Event.read_int r3 n,
        Event.close r3]
      = insert r1 (insert r2 s) := by
  obtain ⟨⟨h1, hr, hw⟩, ⟨h2, h3, h4, hr2, h5, h6, hw2⟩,
      h7, h8, h9, h10, h11, hr3, h12, h13, h14, h15, hw3⟩ :=
    fresh_three s r1 w1 r2 w2 r3 w3 h
  simp only [open_fds, List.foldl, fd_step]
  ext x
  simp only [Finset.mem_erase, Finset.mem_insert]
  constructor
  · tauto
  · intro hx
    have e2 : x ≠ w1 := by
      rintro rfl; rcases hx with hx | hx | hx
      · exact h1 hx.symm
      · exact h4 hx.symm
      · exact hw hx
    have e4 : x ≠ w2 := by
      rintro rfl; rcases hx with hx | hx | hx
      · exact h5 hx
      · exact h2 hx.symm
      · exact hw2 hx
    have e5 : x ≠ r3 := by
      rintro rfl; rcases hx with hx | hx | hx
      · exact h8 hx
      · exact h10 hx
      · exact hr3 hx
    have e6 : x ≠ w3 := by
      rintro rfl; rcases hx with hx | hx | hx
      · exact h12 hx
      · exact h14 hx
      · exact hw3 hx
    tauto

/-- C11: over an explicit set of open descriptors, with `pipe` returning descriptors
that are new and distinct, for every outcome of the three `pipe` calls, of `fork` and
of the exec-status read: when `StartProcessLinux` returns null the set of open
descriptors equals the set before the call; when it returns a handle the set has grown
by exactly two descriptors, the read ends of the stdout and stderr pipes, which are
the handle's `fdOut` and `fdErr`, and each is switched to non-blocking mode (its
`F_GETFL` query, made on an open descriptor, not failing). -/
theorem no_descriptor_leak (command_line cwd : Option CString) (sandbox : Bool)
    (id : Option CString) (os : SysOutcomes) (open_set : Finset Int)
    (hfresh : pipes_fresh open_set
      (StartProcessLinux command_line cwd sandbox id os).trace = true) :
    ((StartProcessLinux command_line cwd sandbox id os).ret = Ret.null →
      open_fds open_set (StartProcessLinux command_line cwd sandbox id os).trace
        = open_set) ∧
    (∀ h : ProcessHandle,
      (StartProcessLinux command_line cwd sandbox id os).ret = Ret.handle h →
      h.fdOut ∉ open_set ∧ h.fdErr ∉ open_set ∧ h.fdOut ≠ h.fdErr ∧
      open_fds open_set (StartProcessLinux command_line cwd sandbox id os).trace
        = insert h.fdOut (insert h.fdErr open_set) ∧
      (∃ w : Int, os.pipeOut = some (h.fdOut, w)) ∧
      (∃ w : Int, os.pipeErr = some (h.fdErr, w)) ∧
      (os.getflOut ≠ -1 → Event.fcntl_setfl_nonblock h.fdOut os.getflOut
        ∈ (StartProcessLinux command_line cwd sandbox id os).trace) ∧
      (os.getflErr ≠ -1 → Event.fcntl_setfl_nonblock h.fdErr os.getflErr
        ∈ (StartProcessLinux command_line cwd sandbox id os).trace)) := by
  by_cases hp : parse_command_line command_line = []
  · rw [start_no_token _ _ _ _ _ hp]
    simp [open_fds]
  cases hpo : os.pipeOut with
  | none =>
    rw [start_pipe_out_fails _ _ _ _ _ hp hpo]
    simp [open_fds, fd_step]
  | some po =>
  obtain ⟨r1, w1⟩ := po
  cases hpe : os.pipeErr with
  | none =>
    rw [start_pipe_err_fails _ _ _ _ _ hp _ hpo hpe] at hfresh ⊢
    have h1 := pipes_fresh_prefix open_set [Event.pipe (some (r1, w1))] _ hfresh
    exact ⟨fun _ => open_fds_pipe_err_fails open_set r1 w1 h1, fun h hh => by simp at hh⟩
  | some pe =>
  obtain ⟨r2, w2⟩ := pe
  cases hpx : os.pipeExec with
  | none =>
    rw [start_pipe_exec_fails _ _ _ _ _ hp _ _ hpo hpe hpx] at hfresh ⊢
    have h2 := pipes_fresh_prefix open_set
      [Event.pipe (some (r1, w1)), Event.pipe (some (r2, w2))] _ hfresh
    exact ⟨fun _ => open_fds_pipe_exec_fails open_set r1 w1 r2 w2 h2,
      fun h hh => by simp at hh⟩
  | some px =>
  obtain ⟨r3, w3⟩ := px
  by_cases hf1 : os.forkRet = -1
  · rw [start_fork_fails _ _ _ _ _ hp _ _ _ hpo hpe hpx hf1] at hfresh ⊢
    have h3 := pipes_fresh_prefix open_set
      [Event.pipe (some (r1, w1)), Event.pipe (some (r2, w2)), Event.pipe (some (r3, w3))]
      _ hfresh
    exact ⟨fun _ => open_fds_fork_fails open_set r1 w1 r2 w2 r3 w3 h3,
      fun h hh => by simp at hh⟩
  by_cases hf0 : os.forkRet = 0
  · rw [start_child _ _ _ _ _ hp _ _ _ hpo hpe hpx hf0]
    exact ⟨fun h => absurd h (child_branch_ret _ _ _ _ _ _ _).1,
      fun h hh => absurd hh ((child_branch_ret _ _ _ _ _ _ _).2 h)⟩
  by_cases hrd : 0 < os.readSz
  · rw [start_parent_exec_failed _ _ _ _ _ hp _ _ _ hpo hpe hpx hf1 hf0 hrd] at hfresh ⊢
    have h3 := pipes_fresh_prefix open_set
      [Event.pipe (some (r1, w1)), Event.pipe (some (r2, w2)), Event.pipe (some (r3, w3))]
      _ hfresh
    exact ⟨fun _ => open_fds_parent_exec_failed open_set r1 w1 r2 w2 r3 w3 _ _ h3,
      fun h hh => by simp at hh⟩
  · rw [start_parent_handle _ _ _ _ _ hp _ _ _ hpo hpe hpx hf1 hf0 hrd] at hfresh ⊢
    have h3 := pipes_fresh_prefix open_set
      [Event.pipe (some (r1, w1)), Event.pipe (some (r2, w2)), Event.pipe (some (r3, w3))]
      _ hfresh
    obtain ⟨⟨_, hr, _⟩, ⟨_, h21, _, hr2, _, _, _⟩, _⟩ := fresh_three open_set r1 w1 r2 w2 r3 w3 h3
    refine ⟨fun h => by simp at h, ?_⟩
    intro h hh
    simp only [Ret.handle.injEq] at hh
    subst hh
    refine ⟨hr, hr2, fun e => h21 e.symm, ?_, ⟨w1, rfl⟩, ⟨w2, rfl⟩, ?_, ?_⟩
    · simp only [open_fds_append, open_fds_set_nonblocking]
      exact open_fds_parent_handle open_set r1 w1 r2 w2 r3 w3 _ _ h3
    · intro hg
      simp [set_nonblocking, hg]
    · intro hg
      simp [set_nonblocking, hg]

/-- C11 at the command line `ls`, seen from the parent of pid 4242 with descriptors
0, 1 and 2 open and pipes (3,4), (5,6), (7,8): when the exec-status read returns 0
the parent returns a handle and exactly 3 and 5 have been added. -/
theorem no_descriptor_leak_witness :
    (3 : Int) ∉ ({0, 1, 2} : Finset Int) ∧ (5 : Int) ∉ ({0, 1, 2} : Finset Int) ∧
    (3 : Int) ≠ 5 ∧
    open_fds {0, 1, 2} (StartProcessLinux (some "ls".toList) none false none (os_parent 0)).trace
      = insert 3 (insert 5 {0, 1, 2}) ∧
    (∃ w : Int, (os_parent 0).pipeOut = some (3, w)) ∧
    (∃ w : Int, (os_parent 0).pipeErr = some (5, w)) ∧
    ((os_parent 0).getflOut ≠ -1 → Event.fcntl_setfl_nonblock 3 (os_parent 0).getflOut
      ∈ (StartProcessLinux (some "ls".toList) none false none (os_parent 0)).trace) ∧
    ((os_parent 0).getflErr ≠ -1 → Event.fcntl_setfl_nonblock 5 (os_parent 0).getflErr
      ∈ (StartProcessLinux (some "ls".toList) none false none (os_parent 0)).trace) :=
  (no_descriptor_leak (some "ls".toList) none false none (os_parent 0) {0, 1, 2}
    (by decide)).2
    { pid := 4242, fdOut := 3, fdErr := 5, isRunning := true, exitCode := -1 } (by decide)

/-! ## Launcher: the child and what the parent concludes -/

/-- The calls of a child up to and including the two `dup2`, both successful, and the
closing of the two write ends. -/
theorem child_branch_chdir_fails (exec_args : List (Option CString))
    (cwd : Option CString) (sandbox : Bool) (po pe px : Int × Int) (os : SysOutcomes)
    (hd1 : os.dup2Out.ret ≠ -1) (hd2 : os.dup2Err.ret ≠ -1)
    (hc : cwd_given cwd = true) (hs : sandbox = false) (hcd : os.chdirRet.ret = -1) :
    child_branch exec_args cwd sandbox po pe px os
      = ⟨[Event.close po.1, Event.close pe.1, Event.close px.1,
          Event.dup2 po.2 STDOUT_FILENO os.dup2Out.ret,
          Event.dup2 pe.2 STDERR_FILENO os.dup2Err.ret,
          Event.close po.2, Event.close pe.2,
          Event.chdir (cstr cwd) (-1), Event.write_int px.2 os.chdirRet.errno],
         Ret.child_exit 1⟩ := by
  simp [child_branch, hd1, hd2, hc, hs, hcd]

theorem child_branch_chdir_ok (exec_args : List (Option CString))
    (cwd : Option CString) (sandbox : Bool) (po pe px : Int × Int) (os : SysOutcomes)
    (hd1 : os.dup2Out.ret ≠ -1) (hd2 : os.dup2Err.ret ≠ -1)
    (hc : cwd_given cwd = true) (hs : sandbox = false) (hcd : os.chdirRet.ret ≠ -1) :
    child_branch exec_args cwd sandbox po pe px os
      = ⟨[Event.close po.1, Event.close pe.1, Event.close px.1,
          Event.dup2 po.2 STDOUT_FILENO os.dup2Out.ret,
          Event.dup2 pe.2 STDERR_FILENO os.dup2Err.ret,
          Event.close po.2, Event.close pe.2,
          Event.chdir (cstr cwd) os.chdirRet.ret,
          Event.execvp (exec_args.headD none) exec_args]
          ++ (match os.execvpErrno with
              | none => []
              | some err => [Event.write_int px.2 err]),
         match os.execvpErrno with
         | none => Ret.child_exec
         | some _ => Ret.child_exit 1⟩ := by
  cases hex : os.execvpErrno <;> simp [child_branch, hd1, hd2, hc, hs, hcd, hex]

theorem child_branch_no_chdir (exec_args : List (Option CString))
    (cwd : Option CString) (sandbox : Bool) (po pe px : Int × Int) (os : SysOutcomes)
    (hd1 : os.dup2Out.ret ≠ -1) (hd2 : os.dup2Err.ret ≠ -1)
    (hc : ¬ (cwd_given cwd = true ∧ sandbox = false)) :
    child_branch exec_args cwd sandbox po pe px os
      = ⟨[Event.close po.1, Event.close pe.1, Event.close px.1,
          Event.dup2 po.2 STDOUT_FILENO os.dup2Out.ret,
          Event.dup2 pe.2 STDERR_FILENO os.dup2Err.ret,
          Event.close po.2, Event.close pe.2,
          Event.execvp (exec_args.headD none) exec_args]
          ++ (match os.execvpErrno with
              | none => []
              | some err => [Event.write_int px.2 err]),
         match os.execvpErrno with
         | none => Ret.child_exec
         | some _ => Ret.child_exit 1⟩ := by
  cases hex : os.execvpErrno <;> simp [child_branch, hd1, hd2, hc, hex]

/-- The child's side of a launch that got as far as `fork`. -/
theorem launch_child_eq (command_line cwd : Option CString) (sandbox : Bool)
    (id : Option CString) (os : SysOutcomes) (hp : parse_command_line command_line ≠ [])
    (po pe px : Int × Int) (hpo : os.pipeOut = some po) (hpe : os.pipeErr = some pe)
    (hpx : os.pipeExec = some px) :
    launch_child command_line cwd sandbox id os
      = ⟨[Event.pipe (some po), Event.pipe (some pe), Event.pipe (some px),
          Event.fcntl_setfd_cloexec px.2, Event.fork 0]
          ++ (child_branch (build_args (parse_command_line command_line) cwd sandbox).getArgs
                cwd sandbox po pe px os).trace,
         (child_branch (build_args (parse_command_line command_line) cwd sandbox).getArgs
                cwd sandbox po pe px os).ret⟩ := by
  have h := start_child command_line cwd sandbox id { os with forkRet := 0 } hp po pe px
    hpo hpe hpx rfl
  rw [launch_child, h]
  rfl

/-- When the child wrote to the exec-status channel the parent returns null. -/
theorem launch_parent_null_of_write (command_line cwd : Option CString) (sandbox : Bool)
    (id : Option CString) (os : SysOutcomes) (pid : Int)
    (hp : parse_command_line command_line ≠ [])
    (po pe px : Int × Int) (hpo : os.pipeOut = some po) (hpe : os.pipeErr = some pe)
    (hpx : os.pipeExec = some px) (hpid0 : pid ≠ 0) (hpid1 : pid ≠ -1)
    (hw : (launch_child command_line cwd sandbox id os).trace.any (Event.is_write_to px.2)
      = true) :
    (launch_parent command_line cwd sandbox id os pid).ret = Ret.null := by
  have h := start_parent_exec_failed command_line cwd sandbox id
    { os with
      forkRet := pid
      readSz :=
        match os.pipeExec with
        | some px => exec_status_read px.2 (launch_child command_line cwd sandbox id os).trace
        | none => 0 } hp po pe px hpo hpe hpx hpid1 hpid0
    (by simp only [hpx, exec_status_read, hw, if_true]; decide)
  rw [launch_parent, h]

/-- When the child wrote nothing to the exec-status channel the parent returns a
handle that reports a running process. -/
theorem launch_parent_handle_of_no_write (command_line cwd : Option CString)
    (sandbox : Bool) (id : Option CString) (os : SysOutcomes) (pid : Int)
    (hp : parse_command_line command_line ≠ [])
    (po pe px : Int × Int) (hpo : os.pipeOut = some po) (hpe : os.pipeErr = some pe)
    (hpx : os.pipeExec = some px) (hpid0 : pid ≠ 0) (hpid1 : pid ≠ -1)
    (hw : (launch_child command_line cwd sandbox id os).trace.any (Event.is_write_to px.2)
      = false) :
    (launch_parent command_line cwd sandbox id os pid).ret
      = Ret.handle { pid := pid, fdOut := po.1, fdErr := pe.1, isRunning := true,
                     exitCode := -1 } := by
  have h := start_parent_handle command_line cwd sandbox id
    { os with
      forkRet := pid
      readSz :=
        match os.pipeExec with
        | some px => exec_status_read px.2 (launch_child command_line cwd sandbox id os).trace
        | none => 0 } hp po pe px hpo hpe hpx hpid1 hpid0
    (by simp [hpx, exec_status_read, hw])
  rw [launch_parent, h]

/-- C12 fails as stated at the unsandboxed launch of `ls` with cwd `/w` in which the
child's first `dup2` fails: cwd is non-empty and sandbox is false, yet the child exits
with the `errno` of `dup2` and calls neither `chdir` nor `execvp`. -/
theorem chdir_not_called_when_dup2_fails :
    cwd_given (some "/w".toList) = true ∧
    (launch_child (some "ls".toList) (some "/w".toList) false none os_dup2_fails).trace.any
      Event.is_chdir = false ∧
    (launch_child (some "ls".toList) (some "/w".toList) false none os_dup2_fails).trace.any
      Event.is_execvp = false ∧
    (launch_child (some "ls".toList) (some "/w".toList) false none os_dup2_fails).ret
      = Ret.child_exit 16 := by
  decide

/-- C12, amended: a child whose two `dup2` redirections succeeded calls `chdir` if
and only if cwd is non-empty and sandbox is false, on the directory cwd, and never
from its `execvp` on; if that `chdir` fails the child writes the error code to the
exec-status channel and exits with status 1 without calling `execvp`, as it does when
`execvp` fails, and in both cases the parent returns null; when sandbox is true the
child never calls `chdir` and the directory is in the vector as the rules
`--bind cwd cwd --chdir cwd`. -/
theorem chdir_handling_in_child (command_line cwd id : Option CString) (sandbox : Bool)
    (os : SysOutcomes) (hp : parse_command_line command_line ≠ [])
    (po pe px : Int × Int) (hpo : os.pipeOut = some po) (hpe : os.pipeErr = some pe)
    (hpx : os.pipeExec = some px)
    (hd1 : os.dup2Out.ret ≠ -1) (hd2 : os.dup2Err.ret ≠ -1) :
    ((launch_child command_line cwd sandbox id os).trace.any Event.is_chdir = true ↔
      (cwd_given cwd = true ∧ sandbox = false)) ∧
    (∀ (p : CString) (r : Int),
      Event.chdir p r ∈ (launch_child command_line cwd sandbox id os).trace → p = cstr cwd) ∧
    (((launch_child command_line cwd sandbox id os).trace.dropWhile
        (fun e => !e.is_execvp)).any Event.is_chdir = false) ∧
    (cwd_given cwd = true → sandbox = false → os.chdirRet.ret = -1 →
      Event.write_int px.2 os.chdirRet.errno
        ∈ (launch_child command_line cwd sandbox id os).trace ∧
      (launch_child command_line cwd sandbox id os).ret = Ret.child_exit 1 ∧
      (launch_child command_line cwd sandbox id os).trace.any Event.is_execvp = false ∧
      ∀ pid : Int, pid ≠ 0 → pid ≠ -1 →
        (launch_parent command_line cwd sandbox id os pid).ret = Ret.null) ∧
    (∀ err : Int, os.execvpErrno = some err →
      ¬ (cwd_given cwd = true ∧ sandbox = false ∧ os.chdirRet.ret = -1) →
      Event.write_int px.2 err ∈ (launch_child command_line cwd sandbox id os).trace ∧
      (launch_child command_line cwd sandbox id os).ret = Ret.child_exit 1 ∧
      ∀ pid : Int, pid ≠ 0 → pid ≠ -1 →
        (launch_parent command_line cwd sandbox id os pid).ret = Ret.null) ∧
    (sandbox = true →
      (launch_child command_line cwd sandbox id os).trace.any Event.is_chdir = false ∧
      ∀ d : CString, cwd = some d → d ≠ [] →
        (build_args (parse_command_line command_line) cwd sandbox).storage
          = spec_base_profile ++ spec_cwd_rules d ++ parse_command_line command_line) := by
  have hnull := fun (hw : (launch_child command_line cwd sandbox id os).trace.any
      (Event.is_write_to px.2) = true) (pid : Int) (h0 : pid ≠ 0) (h1 : pid ≠ -1) =>
    launch_parent_null_of_write command_line cwd sandbox id os pid hp po pe px hpo hpe hpx
      h0 h1 hw
  have hsb : sandbox = true → ∀ d : CString, cwd = some d → d ≠ [] →
      (build_args (parse_command_line command_line) cwd sandbox).storage
        = spec_base_profile ++ spec_cwd_rules d ++ parse_command_line command_line := by
    intro hs d hd hdne
    subst hs hd
    cases d with
    | nil => exact absurd rfl hdne
    | cons a d => simp [build_args_sandbox, cwd_given, cstr]
  rw [launch_child_eq command_line cwd sandbox id os hp po pe px hpo hpe hpx] at hnull ⊢
  by_cases hc : cwd_given cwd = true ∧ sandbox = false
  · obtain ⟨hc1, hc2⟩ := hc
    by_cases hcd : os.chdirRet.ret = -1
    · rw [child_branch_chdir_fails _ cwd sandbox po pe px os hd1 hd2 hc1 hc2 hcd] at hnull ⊢
      refine ⟨?_, ?_, ?_, ?_, ?_, ?_⟩
      · simp [Event.is_chdir, hc1, hc2]
      · intro p r h; simp at h; exact h.1
      · simp [Event.is_chdir, Event.is_execvp, List.dropWhile]
      · intro _ _ _
        refine ⟨by simp, rfl, by simp [Event.is_execvp], ?_⟩
        exact hnull (by simp [Event.is_write_to])
      · intro err _ hno
        exact absurd ⟨hc1, hc2, hcd⟩ hno
      · intro hs; rw [hs] at hc2; exact absurd hc2 (by decide)
    · rw [child_branch_chdir_ok _ cwd sandbox po pe px os hd1 hd2 hc1 hc2 hcd] at hnull ⊢
      refine ⟨?_, ?_, ?_, ?_, ?_, ?_⟩
      · simp [Event.is_chdir, hc1, hc2]
      · intro p r h
        cases hex : os.execvpErrno <;> simp [hex] at h <;> exact h.1
      · cases hex : os.execvpErrno <;>
          simp [Event.is_chdir, Event.is_execvp, List.dropWhile]
      · intro _ _ h; exact absurd h hcd
      · intro err hex _
        refine ⟨by simp [hex], by simp [hex], ?_⟩
        exact hnull (by simp [hex, Event.is_write_to])
      · intro hs; rw [hs] at hc2; exact absurd hc2 (by decide)
  · rw [child_branch_no_chdir _ cwd sandbox po pe px os hd1 hd2 hc] at hnull ⊢
    refine ⟨?_, ?_, ?_, ?_, ?_, ?_⟩
    · cases hex : os.execvpErrno <;> simp [Event.is_chdir, hc]
    · intro p r h
      cases hex : os.execvpErrno <;> simp [hex] at h
    · cases hex : os.execvpErrno <;>
        simp [Event.is_chdir, Event.is_execvp, List.dropWhile]
    · intro h1 h2 _; exact absurd ⟨h1, h2⟩ hc
    · intro err hex _
      refine ⟨by simp [hex], by simp [hex], ?_⟩
      exact hnull (by simp [hex, Event.is_write_to])
    · intro hs
      refine ⟨?_, hsb hs⟩
      cases hex : os.execvpErrno <;> simp [Event.is_chdir]

/-- C12 (amended) at the unsandboxed launch of `ls` with cwd `/w` whose `chdir`
fails with `errno` 2: the child writes 2 to the exec-status channel, exits with
status 1 without `execvp`, and the parent of pid 4242 returns null. -/
theorem chdir_handling_in_child_witness :
    Event.write_int 8 2
      ∈ (launch_child (some "ls".toList) (some "/w".toList) false none os_chdir_fails).trace ∧
    (launch_child (some "ls".toList) (some "/w".toList) false none os_chdir_fails).ret
      = Ret.child_exit 1 ∧
    (launch_child (some "ls".toList) (some "/w".toList) false none os_chdir_fails).trace.any
      Event.is_execvp = false ∧
    (launch_parent (some "ls".toList) (some "/w".toList) false none os_chdir_fails 4242).ret
      = Ret.null :=
  have h := (chdir_handling_in_child (some "ls".toList) (some "/w".toList) none false
    os_chdir_fails (by decide) (3, 4) (5, 6) (7, 8) rfl rfl rfl (by decide)
    (by decide)).2.2.2.1 (by decide) rfl rfl
  ⟨h.1, h.2.1, h.2.2.1, h.2.2.2 4242 (by decide) (by decide)⟩

/-- A child whose `dup2` fails exits without writing to the exec-status channel, and
the parent returns a handle that reports a running process. -/
theorem dup2_failure_not_reported (command_line cwd id : Option CString) (sandbox : Bool)
    (os : SysOutcomes) (pid : Int) (hp : parse_command_line command_line ≠ [])
    (po pe px : Int × Int) (hpo : os.pipeOut = some po) (hpe : os.pipeErr = some pe)
    (hpx : os.pipeExec = some px) (hpid0 : pid ≠ 0) (hpid1 : pid ≠ -1)
    (hd : os.dup2Out.ret = -1 ∨ os.dup2Err.ret = -1) :
    (launch_child command_line cwd sandbox id os).trace.any Event.is_execvp = false ∧
    (∃ status : Int, (launch_child command_line cwd sandbox id os).ret = Ret.child_exit status) ∧
    (launch_parent command_line cwd sandbox id os pid).ret
      = Ret.handle { pid := pid, fdOut := po.1, fdErr := pe.1, isRunning := true,
                     exitCode := -1 } := by
  have hh := launch_parent_handle_of_no_write command_line cwd sandbox id os pid hp po pe px
    hpo hpe hpx hpid0 hpid1
  rw [launch_child_eq command_line cwd sandbox id os hp po pe px hpo hpe hpx] at hh ⊢
  by_cases h1 : os.dup2Out.ret = -1
  · have hb : child_branch (build_args (parse_command_line command_line) cwd sandbox).getArgs
          cwd sandbox po pe px os
        = ⟨[Event.close po.1, Event.close pe.1, Event.close px.1,
            Event.dup2 po.2 STDOUT_FILENO os.dup2Out.ret], Ret.child_exit os.dup2Out.errno⟩ := by
      simp [child_branch, h1]
    rw [hb] at hh ⊢
    exact ⟨by simp [Event.is_execvp], ⟨_, rfl⟩, hh (by simp [Event.is_write_to])⟩
  · have h2 : os.dup2Err.ret = -1 := by
      rcases hd with hd | hd
      · exact absurd hd h1
      · exact hd
    have hb : child_branch (build_args (parse_command_line command_line) cwd sandbox).getArgs
          cwd sandbox po pe px os
        = ⟨[Event.close po.1, Event.close pe.1, Event.close px.1,
            Event.dup2 po.2 STDOUT_FILENO os.dup2Out.ret,
            Event.dup2 pe.2 STDERR_FILENO os.dup2Err.ret],
           Ret.child_exit os.dup2Err.errno⟩ := by
      simp [child_branch, h1, h2]
    rw [hb] at hh ⊢
    exact ⟨by simp [Event.is_execvp], ⟨_, rfl⟩, hh (by simp [Event.is_write_to])⟩

/-- C14 fails at the launch of `ls` in which the child's `dup2` onto standard output
fails with `errno` 16: the child exits with status 16 having called neither `execvp`
nor `write` on the exec-status channel (descriptor 8), and the parent of pid 4242
returns a handle that reports a running process instead of null. -/
theorem handle_returned_when_dup2_fails :
    (launch_child (some "ls".toList) none false none os_dup2_fails).ret
      = Ret.child_exit 16 ∧
    (launch_child (some "ls".toList) none false none os_dup2_fails).trace.any
      Event.is_execvp = false ∧
    (launch_child (some "ls".toList) none false none os_dup2_fails).trace.any
      (Event.is_write_to 8) = false ∧
    (launch_parent (some "ls".toList) none false none os_dup2_fails 4242).ret
      = Ret.handle { pid := 4242, fdOut := 3, fdErr := 5, isRunning := true,
                     exitCode := -1 } := by
  decide

/-! ## Windows pipe read -/

/-- C13 fails as stated at buffer size 0 on an open pipe holding 5 bytes:
`ReadPipeWin` returns 0, the end-of-stream value, although the writer has not closed
the pipe and it is not drained. -/
theorem read_pipe_win_zero_size_returns_zero :
    (ReadPipeWin 0 (win_outcomes { avail := 5, writerClosed := false, lastError := 0 } 0)).ret
      = 0 := by
  decide

/-- On an open, empty pipe, when the thread's last-error value is an
`ERROR_BROKEN_PIPE` left by an earlier call, `ReadPipeWin` returns 0 and not -1. -/
theorem read_pipe_win_stale_last_error :
    (ReadPipeWin 16
        (win_outcomes { avail := 0, writerClosed := false, lastError := ERROR_BROKEN_PIPE } 16)).ret
      = 0 := by
  decide

/-- C13, amended: for every buffer size from 1 up and every pipe state in which the
thread's last-error value is not a leftover `ERROR_BROKEN_PIPE`, `ReadPipeWin`
returns `n` with `1 ≤ n ≤ size` when the pipe holds bytes, returns 0 exactly when the
writer has closed the pipe and it is drained, and returns -1 when the pipe is open
and empty; and for every size and every outcome of the Windows calls, `ReadFile` is
called only after `PeekNamedPipe` succeeded and reported at least one byte. -/
theorem read_pipe_win_convention (sz : Int) (p : WinPipe)
    (hsz1 : 1 ≤ sz) (hsz2 : sz < 2 ^ 31) (havail : p.avail < 2 ^ 32)
    (herr : p.lastError ≠ ERROR_BROKEN_PIPE) :
    (1 ≤ p.avail → 1 ≤ (ReadPipeWin sz (win_outcomes p sz)).ret ∧
      (ReadPipeWin sz (win_outcomes p sz)).ret ≤ sz ∧
      (ReadPipeWin sz (win_outcomes p sz)).ret = min sz p.avail) ∧
    ((ReadPipeWin sz (win_outcomes p sz)).ret = 0 ↔ (p.avail = 0 ∧ p.writerClosed = true)) ∧
    (p.avail = 0 → p.writerClosed = false → (ReadPipeWin sz (win_outcomes p sz)).ret = -1) ∧
    (∀ (n : Int) (w : WinOutcomes) (k : Nat),
      WinCall.ReadFile k ∈ (ReadPipeWin n w).calls → w.peekOk = true ∧ 1 ≤ w.peekAvail) := by
  have hd : int_to_dword sz = sz.toNat := by
    unfold int_to_dword
    rw [Int.emod_eq_of_lt (by omega) (by omega)]
  have hread : 1 ≤ p.avail → (ReadPipeWin sz (win_outcomes p sz)).ret = min sz p.avail := by
    intro ha
    have h0 : p.avail ≠ 0 := by omega
    have hmin : min sz.toNat p.avail < 2 ^ 31 := by
      have : min sz.toNat p.avail ≤ sz.toNat := Nat.min_le_left _ _
      omega
    have hmod : (min sz.toNat p.avail) % 2 ^ 32 = min sz.toNat p.avail :=
      Nat.mod_eq_of_lt (by omega)
    simp only [ReadPipeWin, win_outcomes, h0, hd, dword_to_int, hmod, hmin]
    simp
    omega
  refine ⟨?_, ?_, ?_, ?_⟩
  · intro ha
    have h := hread ha
    refine ⟨?_, ?_, h⟩ <;> rw [h] <;> omega
  · constructor
    · intro h
      by_cases ha : 1 ≤ p.avail
      · rw [hread ha] at h; omega
      · have h0 : p.avail = 0 := by omega
        refine ⟨h0, ?_⟩
        cases hc : p.writerClosed
        · simp [ReadPipeWin, win_outcomes, h0, hc, herr] at h
        · rfl
    · rintro ⟨h0, hc⟩
      simp [ReadPipeWin, win_outcomes, h0, hc]
  · intro h0 hc
    simp [ReadPipeWin, win_outcomes, h0, hc, herr]
  · intro n w k h
    unfold ReadPipeWin at h
    split_ifs at h with h1 h2 h3 h4 <;> simp at h <;>
      (simp only [not_or] at h1; exact ⟨by simpa using h1.1, by omega⟩)

/-- C13 (amended) at buffer size 16 on an open pipe holding 5 bytes with last-error
value 0: the call returns 5. -/
theorem read_pipe_win_convention_witness :
    (ReadPipeWin 16 (win_outcomes { avail := 5, writerClosed := false, lastError := 0 } 16)).ret
      = min 16 5 :=
  ((read_pipe_win_convention 16 { avail := 5, writerClosed := false, lastError := 0 }
    (by decide) (by decide) (by decide) (by decide)).1 (by decide)).2.2

end Workspace
